import Mathlib

/-!
Verification of the RISC-V custom-instruction disassembler
(gdb/python/lib/gdb/custominsn.py).

The Python module is embedded shallowly: exceptions become an explicit
error type threaded through `Except`, XML element nodes become attribute
association lists, the per-class `Insn` subclasses become constructor
functions producing a flat `Entry` record, and the bit-string slicing
idiom `int(format(w, '032b')[::-1][hi:lo-1:-1], 2)` becomes arithmetic
extraction of the inclusive bit range `[hi:lo]`.
-/

/-- Python exception kinds relevant to the module: `KeyError` (missing
dictionary key), `ValueError` (e.g. `int(s, 16)` on a non-hex string).
`create_insns` catches only `KeyError`. -/
inductive PyErr where
  | keyError : PyErr
  | valueError : PyErr
deriving DecidableEq

/-- A value stored in the decoded field dictionary: the Python code puts
both plain integers and strings (register names, hex-formatted addresses)
into `fields`. -/
inductive PyVal where
  | int : Int → PyVal
  | str : String → PyVal
deriving DecidableEq

/-- Python `str(v)` for the two value shapes stored in `fields`. -/
def pyStr : PyVal → String
  | .int n => toString n
  | .str s => s

/-- The field dictionary built by `gen_instr_assembly`: keys in insertion
order (Python dicts preserve insertion order), unique keys. -/
abbrev FieldMap := List (String × PyVal)

/-- Python `k in fields` membership test. -/
def hasKey (fields : FieldMap) (k : String) : Bool :=
  (fields.lookup k).isSome

/-- Hex digit character of a value below 16, lowercase as produced by
Python `hex()` (values 16 and above never arise; they fall back to the
last digit). -/
def hexDigitChar (d : Nat) : Char :=
  if d < 10 then Char.ofNat ('0'.toNat + d)
  else if d < 16 then Char.ofNat ('a'.toNat + d - 10)
  else 'f'

/-- Value of a hex digit character, accepting both letter cases exactly
as Python `int(s, 16)` does. -/
def hexCharVal (c : Char) : Option Nat :=
  if '0' ≤ c ∧ c ≤ '9' then some (c.toNat - '0'.toNat)
  else if 'a' ≤ c ∧ c ≤ 'f' then some (c.toNat - 'a'.toNat + 10)
  else if 'A' ≤ c ∧ c ≤ 'F' then some (c.toNat - 'A'.toNat + 10)
  else none

/-- Little-endian hex digits of `n`; the fuel argument (instantiated with
`n` itself) keeps the recursion structural so terms reduce in the kernel. -/
def hexDigitsAux : Nat → Nat → List Char
  | 0, _ => []
  | _ + 1, 0 => []
  | fuel + 1, n => hexDigitChar (n % 16) :: hexDigitsAux fuel (n / 16)

/-- Hex digit string of a natural number, most significant digit first;
`natHexDigits 0 = "0"` as in Python. -/
def natHexDigits (n : Nat) : String :=
  if n = 0 then "0" else String.mk (hexDigitsAux n n).reverse

/-- Python `hex(n)` on an int: `0x`-prefixed lowercase hex digits, a
leading `-` for negative values. -/
def pyHex (n : Int) : String :=
  if n < 0 then "-0x" ++ natHexDigits n.natAbs else "0x" ++ natHexDigits n.toNat

/-- Accumulating most-significant-first hex digit parse; `none` on any
non-hex character. -/
def parseHexAcc : Nat → List Char → Option Nat
  | acc, [] => some acc
  | acc, c :: cs =>
    match hexCharVal c with
    | some d => parseHexAcc (acc * 16 + d) cs
    | none => none

/-- Strip an optional `0x` / `0X` prefix, as accepted by Python
`int(s, 16)`. -/
def stripHexMark : List Char → List Char
  | '0' :: 'x' :: cs => cs
  | '0' :: 'X' :: cs => cs
  | cs => cs

/-- Parse a non-negative hex numeral (optionally `0x`-prefixed); empty
digit strings are a `ValueError` as in Python. -/
def parseHexNat (cs : List Char) : Except PyErr Nat :=
  match stripHexMark cs with
  | [] => .error .valueError
  | ds =>
    match parseHexAcc 0 ds with
    | some v => .ok v
    | none => .error .valueError

/-- Python `int(s, 16)`: optional sign, optional `0x` mark, hex digits.
(The model omits Python's tolerance for surrounding whitespace, a leading
`+` and `_` separators, none of which occur in this module's inputs.) -/
def pyIntHex (s : String) : Except PyErr Int :=
  match s.data with
  | '-' :: cs =>
    match parseHexNat cs with
    | .ok v => .ok (-(v : Int))
    | .error e => .error e
  | cs =>
    match parseHexNat cs with
    | .ok v => .ok (v : Int)
    | .error e => .error e

/-- The 32-entry x-register name table `Insn._x_reg_names`. -/
def xRegNames : List String :=
  ["zero", "ra", "sp", "gp", "tp", "t0",
   "t1", "t2", "fp", "s1", "a0", "a1",
   "a2", "a3", "a4", "a5", "a6", "a7",
   "s2", "s3", "s4", "s5", "s6", "s7",
   "s8", "s9", "s10", "s11", "t3", "t4",
   "t5", "t6"]

/-- The 8-entry compressed register name table `Insn._cx_reg_names`. -/
def cxRegNames : List String :=
  ["fp", "s1", "a0", "a1", "a2", "a3", "a4", "a5"]

/-- Bits `hi` down to `lo` (inclusive) of `w`: the value of
`int(format(w, '032b')[::-1][hi:lo-1:-1], 2)` in the Python source
(and likewise for the 16-bit `'016b'` variant), for `w` below the
formatted width. -/
def sliceBits (w hi lo : Nat) : Nat :=
  (w >>> lo) % 2 ^ (hi + 1 - lo)

/-- The sign-extension computation shared by all immediate-decoding
classes: with `mask1 = 1 << b` and `mask2 = mask1 - 1` the Python code
computes `(uimm & mask2) - (uimm & mask1)` in arbitrary-precision ints. -/
def signext (b u : Nat) : Int :=
  (Int.ofNat (u &&& (1 <<< b - 1))) - (Int.ofNat (u &&& (1 <<< b)))

-- Sanity checks of the hex machinery on concrete values.
example : pyHex 4112 = "0x1010" := by decide
example : pyHex (-16) = "-0x10" := by decide
example : pyIntHex "0x1010" = .ok 4112 := rfl
example : pyIntHex "zz" = .error .valueError := rfl
example : signext 11 0x800 = -2048 := by decide
example : signext 11 0x7ff = 2047 := by decide

/-!
Catalog entry model: the `Insn` class hierarchy flattened into one record.
Each Python subclass constructor parses its attributes and computes
`self.insn` (fixed bits), `self.mask` (select mask) and `self.len`.
-/

/-- An XML `instruction` element: its attribute dictionary. -/
structure Elem where
  attrib : List (String × String)
deriving DecidableEq

/-- `elem.attrib[k]`: raises `KeyError` when the key is absent. -/
def attrStr (e : Elem) (k : String) : Except PyErr String :=
  match e.attrib.lookup k with
  | some v => .ok v
  | none => .error .keyError

/-- `int(elem.attrib[k], 16)`: `KeyError` when absent, `ValueError` when
not a hex numeral.  (Attribute values are catalog hex constants; the
negative-numeral case of Python `int` is not modelled.) -/
def attrHexNat (e : Elem) (k : String) : Except PyErr Nat :=
  match attrStr e k with
  | .ok s => parseHexNat s.data
  | .error er => .error er

/-- One constructed catalog entry: the attributes stored by
`Insn.__init__` and its subclasses plus the derived `insn` (fixed bits),
`mask` (select mask) and `len` (byte length). -/
structure Entry where
  opcode : Nat
  format_string : String
  type : String
  funct3 : Option Nat
  funct4 : Option Nat
  funct7 : Option Nat
  insn : Nat
  mask : Nat
  len : Nat
deriving DecidableEq

/-- `Insn.gen_opfunc3funct7_instr`: `opcode | funct3 << 12 | funct7 << 25`. -/
def gen_opfunc3funct7_instr (opcode funct3 funct7 : Nat) : Nat :=
  opcode ||| (funct3 <<< 12) ||| (funct7 <<< 25)

/-- `Insn.gen_opfunc3_instr`: `opcode | funct3 << 12`. -/
def gen_opfunc3_instr (opcode funct3 : Nat) : Nat :=
  opcode ||| (funct3 <<< 12)

/-- `Insn.gen_op_instr`: the opcode alone. -/
def gen_op_instr (opcode : Nat) : Nat :=
  opcode

/-- `Insn.gen_c_opfunc4_instr`: `opcode | funct4 << 12`. -/
def gen_c_opfunc4_instr (opcode funct4 : Nat) : Nat :=
  opcode ||| (funct4 <<< 12)

/-- `Insn.gen_c_opfunc3_instr`: `opcode | funct3 << 13`. -/
def gen_c_opfunc3_instr (opcode funct3 : Nat) : Nat :=
  opcode ||| (funct3 <<< 13)

/-- `Insn.gen_opfunc3funct7_mask`. -/
def gen_opfunc3funct7_mask : Nat :=
  0b1111111 ||| (0b111 <<< 12) ||| (0b1111111 <<< 25)

/-- `Insn.gen_opfunc3_mask`. -/
def gen_opfunc3_mask : Nat :=
  0b1111111 ||| (0b111 <<< 12)

/-- `Insn.gen_op_mask`. -/
def gen_op_mask : Nat :=
  0b1111111

/-- `Insn.gen_c_opfunc4_mask`. -/
def gen_c_opfunc4_mask : Nat :=
  0b11 ||| (0b1111 <<< 12)

/-- `Insn.gen_c_opfunc3_mask`. -/
def gen_c_opfunc3_mask : Nat :=
  0b11 ||| (0b111 <<< 13)

/-- Pure part of `R_Insn.__init__`, once the attributes are parsed. -/
def R_insn_mk (opcode funct3 funct7 : Nat) (fmt ty : String) : Entry :=
  { opcode, format_string := fmt, type := ty,
    funct3 := some funct3, funct4 := none, funct7 := some funct7,
    insn := gen_opfunc3funct7_instr opcode funct3 funct7,
    mask := gen_opfunc3funct7_mask, len := 4 }

/-- Pure part of `I_Insn.__init__`. -/
def I_insn_mk (opcode funct3 : Nat) (fmt ty : String) : Entry :=
  { opcode, format_string := fmt, type := ty,
    funct3 := some funct3, funct4 := none, funct7 := none,
    insn := gen_opfunc3_instr opcode funct3,
    mask := gen_opfunc3_mask, len := 4 }

/-- Pure part of `S_Insn.__init__`. -/
def S_insn_mk (opcode funct3 : Nat) (fmt ty : String) : Entry :=
  { opcode, format_string := fmt, type := ty,
    funct3 := some funct3, funct4 := none, funct7 := none,
    insn := gen_opfunc3_instr opcode funct3,
    mask := gen_opfunc3_mask, len := 4 }

/-- Pure part of `B_Insn.__init__`. -/
def B_insn_mk (opcode funct3 : Nat) (fmt ty : String) : Entry :=
  { opcode, format_string := fmt, type := ty,
    funct3 := some funct3, funct4 := none, funct7 := none,
    insn := gen_opfunc3_instr opcode funct3,
    mask := gen_opfunc3_mask, len := 4 }

/-- Pure part of `U_Insn.__init__`. -/
def U_insn_mk (opcode : Nat) (fmt ty : String) : Entry :=
  { opcode, format_string := fmt, type := ty,
    funct3 := none, funct4 := none, funct7 := none,
    insn := gen_op_instr opcode, mask := gen_op_mask, len := 4 }

/-- Pure part of `J_Insn.__init__`. -/
def J_insn_mk (opcode : Nat) (fmt ty : String) : Entry :=
  { opcode, format_string := fmt, type := ty,
    funct3 := none, funct4 := none, funct7 := none,
    insn := gen_op_instr opcode, mask := gen_op_mask, len := 4 }

/-- Pure part of `CR_Insn.__init__`. -/
def CR_insn_mk (opcode funct4 : Nat) (fmt ty : String) : Entry :=
  { opcode, format_string := fmt, type := ty,
    funct3 := none, funct4 := some funct4, funct7 := none,
    insn := gen_c_opfunc4_instr opcode funct4,
    mask := gen_c_opfunc4_mask, len := 2 }

/-- Pure part of the constructors of the compressed funct3 classes
CI, CSS, CIW, CL, CS, CB and CJ, which differ only in their stored type
string (their masks and fixed bits are computed identically). -/
def C3_insn_mk (opcode funct3 : Nat) (fmt ty : String) : Entry :=
  { opcode, format_string := fmt, type := ty,
    funct3 := some funct3, funct4 := none, funct7 := none,
    insn := gen_c_opfunc3_instr opcode funct3,
    mask := gen_c_opfunc3_mask, len := 2 }

/-- `R_Insn(elem)`: parse `opcode`, `str`, `type`, then `funct3` and
`funct7`, in the source's attribute-access order. -/
def R_make (e : Elem) : Except PyErr Entry := do
  let op ← attrHexNat e "opcode"
  let fmt ← attrStr e "str"
  let ty ← attrStr e "type"
  let f3 ← attrHexNat e "funct3"
  let f7 ← attrHexNat e "funct7"
  .ok (R_insn_mk op f3 f7 fmt ty)

/-- `I_Insn(elem)`. -/
def I_make (e : Elem) : Except PyErr Entry := do
  let op ← attrHexNat e "opcode"
  let fmt ← attrStr e "str"
  let ty ← attrStr e "type"
  let f3 ← attrHexNat e "funct3"
  .ok (I_insn_mk op f3 fmt ty)

/-- `S_Insn(elem)`. -/
def S_make (e : Elem) : Except PyErr Entry := do
  let op ← attrHexNat e "opcode"
  let fmt ← attrStr e "str"
  let ty ← attrStr e "type"
  let f3 ← attrHexNat e "funct3"
  .ok (S_insn_mk op f3 fmt ty)

/-- `B_Insn(elem)`. -/
def B_make (e : Elem) : Except PyErr Entry := do
  let op ← attrHexNat e "opcode"
  let fmt ← attrStr e "str"
  let ty ← attrStr e "type"
  let f3 ← attrHexNat e "funct3"
  .ok (B_insn_mk op f3 fmt ty)

/-- `U_Insn(elem)`. -/
def U_make (e : Elem) : Except PyErr Entry := do
  let op ← attrHexNat e "opcode"
  let fmt ← attrStr e "str"
  let ty ← attrStr e "type"
  .ok (U_insn_mk op fmt ty)

/-- `J_Insn(elem)`. -/
def J_make (e : Elem) : Except PyErr Entry := do
  let op ← attrHexNat e "opcode"
  let fmt ← attrStr e "str"
  let ty ← attrStr e "type"
  .ok (J_insn_mk op fmt ty)

/-- `CR_Insn(elem)`. -/
def CR_make (e : Elem) : Except PyErr Entry := do
  let op ← attrHexNat e "opcode"
  let fmt ← attrStr e "str"
  let ty ← attrStr e "type"
  let f4 ← attrHexNat e "funct4"
  .ok (CR_insn_mk op f4 fmt ty)

/-- Constructor of the seven compressed funct3 classes (`CI_Insn` …
`CJ_Insn`), which parse the same attributes. -/
def C3_make (e : Elem) : Except PyErr Entry := do
  let op ← attrHexNat e "opcode"
  let fmt ← attrStr e "str"
  let ty ← attrStr e "type"
  let f3 ← attrHexNat e "funct3"
  .ok (C3_insn_mk op f3 fmt ty)

/-- `gen_insn[elem.attrib['type']](elem)` in `create_insns`: look up the
`type` attribute (KeyError if absent), dispatch through the fixed name
table including the `SB` and `UJ` aliases (KeyError if unknown), then run
the class constructor. -/
def genInsnFor (e : Elem) : Except PyErr Entry := do
  let ty ← attrStr e "type"
  match ty with
  | "R" => R_make e
  | "I" => I_make e
  | "S" => S_make e
  | "B" => B_make e
  | "SB" => B_make e
  | "U" => U_make e
  | "J" => J_make e
  | "UJ" => J_make e
  | "CR" => CR_make e
  | "CI" => C3_make e
  | "CSS" => C3_make e
  | "CIW" => C3_make e
  | "CL" => C3_make e
  | "CS" => C3_make e
  | "CB" => C3_make e
  | "CJ" => C3_make e
  | _ => .error .keyError

/-- `CustomInstructionHandler.create_insns`: iterate the `instruction`
nodes in document order; a `KeyError` from a node is caught and a
diagnostic `"Unknown Instruction Type: " + elem.attrib['type']` printed
(the attribute access inside the handler itself can raise an uncaught
`KeyError`); any other exception (notably `ValueError` from a non-hex
attribute) propagates and aborts the whole load.  Returns the
successfully constructed entries in document order together with the
diagnostics. -/
def create_insns : List Elem → Except PyErr (List Entry × List String)
  | [] => .ok ([], [])
  | e :: rest =>
    match genInsnFor e with
    | .ok i =>
      match create_insns rest with
      | .ok (is, ds) => .ok (i :: is, ds)
      | .error er => .error er
    | .error .keyError =>
      match attrStr e "type" with
      | .ok t =>
        match create_insns rest with
        | .ok (is, ds) => .ok (is, ("Unknown Instruction Type: " ++ t) :: ds)
        | .error er => .error er
      | .error er => .error er
    | .error er => .error er

/-- `CustomInstructionHandler.__init__`: when `fetch_xml` yields no
document root (`None`) the instruction list is empty; otherwise it is
built by `create_insns`. -/
def handler_insns (root : Option (List Elem)) :
    Except PyErr (List Entry × List String) :=
  match root with
  | none => .ok ([], [])
  | some elems => create_insns elems

/-- `CustomInstructionHandler.compare_with_insn`: `False` when the byte
length differs, else test `insn.insn == byte & insn.mask`. -/
def compare_with_insn (byte : Nat) (insn : Entry) (len : Nat) : Bool :=
  if len ≠ insn.len then false
  else insn.insn == byte &&& insn.mask

/-- `CustomInstructionHandler.compare_with_insns`: first matching entry
in catalog order, or `None`. -/
def compare_with_insns (insns : List Entry) (byte len : Nat) : Option Entry :=
  match insns with
  | [] => none
  | i :: rest =>
    if compare_with_insn byte i len then some i
    else compare_with_insns rest byte len

/-- The matching condition exactly as the spec's Matcher contract words
it: the entry's fixed byte length equals the given length and
`(word & entry.select_mask) == entry.fixed_bits`. -/
def entrySpecMatches (e : Entry) (word len : Nat) : Prop :=
  e.len = len ∧ word &&& e.mask = e.insn

instance (e : Entry) (word len : Nat) : Decidable (entrySpecMatches e word len) :=
  inferInstanceAs (Decidable (_ ∧ _))

/-!
Bitfield decoders: each `gen_instr_assembly` method, split into the
field-dictionary construction (modelled here) and the final call to
`expand_format_string` (modelled further below).  Field insertion order
follows the Python source line by line.
-/

/-- The slice of `DisassembleInfo` the module reads: the instruction's
address and the architecture name `info.architecture.name()`. -/
structure DisasmInfo where
  address : Int
  archName : String
deriving DecidableEq

/-- Modelled from the spec: `gdb.disassembler.format_address` is host
API, absent from the sources; per spec section 4.4 addresses are
rendered as lowercase hexadecimal with a `0x` prefix. -/
def format_address (addr : Int) : String :=
  pyHex addr

/-- Register-name rendering `self._x_reg_names[idx]` (the extracted
index is always below 32, so the default is never reached). -/
def xReg (idx : Nat) : String :=
  xRegNames.getD idx ""

/-- Register-name rendering `self._cx_reg_names[idx]` (the extracted
index is always below 8). -/
def cxReg (idx : Nat) : String :=
  cxRegNames.getD idx ""

/-- `R_Insn.gen_instr_assembly` fields: rd=[11:7], rs1=[19:15],
rs2=[24:20], all x-register names. -/
def R_fields (w : Nat) : FieldMap :=
  [("rd", .str (xReg (sliceBits w 11 7))),
   ("rs1", .str (xReg (sliceBits w 19 15))),
   ("rs2", .str (xReg (sliceBits w 24 20)))]

/-- `I_Insn` raw immediate: bits [31:20]. -/
def I_uimm (w : Nat) : Nat :=
  sliceBits w 31 20

/-- `I_Insn.gen_instr_assembly` fields: rd, rs1, `uimm`, and `imm`
sign-extended with `mask1 = 1 << 11`. -/
def I_fields (w : Nat) : FieldMap :=
  [("rd", .str (xReg (sliceBits w 11 7))),
   ("rs1", .str (xReg (sliceBits w 19 15))),
   ("uimm", .int (I_uimm w)),
   ("imm", .int (signext 11 (I_uimm w)))]

/-- `S_Insn` raw immediate: `[11:7] | [31:25] << 5`. -/
def S_uimm (w : Nat) : Nat :=
  sliceBits w 11 7 ||| (sliceBits w 31 25 <<< 5)

/-- `S_Insn.gen_instr_assembly` fields. -/
def S_fields (w : Nat) : FieldMap :=
  [("rs1", .str (xReg (sliceBits w 19 15))),
   ("rs2", .str (xReg (sliceBits w 24 20))),
   ("uimm", .int (S_uimm w)),
   ("imm", .int (signext 11 (S_uimm w)))]

/-- `B_Insn` raw immediate:
`([11:8] << 1) | ([30:25] << 5) | ([7] << 11) | ([31] << 12)`. -/
def B_uimm (w : Nat) : Nat :=
  (sliceBits w 11 8 <<< 1) ||| (sliceBits w 30 25 <<< 5) |||
  (sliceBits w 7 7 <<< 11) ||| (sliceBits w 31 31 <<< 12)

/-- `B_Insn.gen_instr_assembly` fields: note that both `uimm` and `imm`
are hex strings of `info.address` plus the (raw resp. sign-extended,
`mask1 = 1 << 12`) immediate, not raw numbers. -/
def B_fields (info : DisasmInfo) (w : Nat) : FieldMap :=
  [("rs1", .str (xReg (sliceBits w 19 15))),
   ("rs2", .str (xReg (sliceBits w 24 20))),
   ("uimm", .str (pyHex (info.address + B_uimm w))),
   ("imm", .str (pyHex (info.address + signext 12 (B_uimm w))))]

/-- `U_Insn` internal immediate: bits [31:12], shifted up by 12 as in the
source (the field values shift it back down). -/
def U_uimm (w : Nat) : Nat :=
  sliceBits w 31 12 <<< 12

/-- `U_Insn.gen_instr_assembly` fields: `uimm` and `imm` both hold the
raw 20-bit field (`uimm >> 12`), with no sign handling. -/
def U_fields (w : Nat) : FieldMap :=
  [("rd", .str (xReg (sliceBits w 11 7))),
   ("uimm", .int (U_uimm w >>> 12)),
   ("imm", .int (U_uimm w >>> 12))]

/-- `J_Insn` raw immediate:
`([19:12] << 12) | ([20] << 11) | ([30:21] << 1) | ([31] << 20)`. -/
def J_uimm (w : Nat) : Nat :=
  (sliceBits w 19 12 <<< 12) ||| (sliceBits w 20 20 <<< 11) |||
  (sliceBits w 30 21 <<< 1) ||| (sliceBits w 31 31 <<< 20)

/-- `J_Insn.gen_instr_assembly` fields: like B, `uimm` and `imm` are hex
strings of address plus immediate (`mask1 = 1 << 20`). -/
def J_fields (info : DisasmInfo) (w : Nat) : FieldMap :=
  [("rd", .str (xReg (sliceBits w 11 7))),
   ("uimm", .str (pyHex (info.address + J_uimm w))),
   ("imm", .str (pyHex (info.address + signext 20 (J_uimm w))))]

/-- `CR_Insn.gen_instr_assembly` fields: rs2=[6:2], rd/rs1=[11:7], all
x-register names, inserted in source order rs2, rs1, rd. -/
def CR_fields (w : Nat) : FieldMap :=
  [("rs2", .str (xReg (sliceBits w 6 2))),
   ("rs1", .str (xReg (sliceBits w 11 7))),
   ("rd", .str (xReg (sliceBits w 11 7)))]

/-- `CI_Insn` raw immediate: `[6:2] | ([12] << 5)`. -/
def CI_uimm (w : Nat) : Nat :=
  sliceBits w 6 2 ||| (sliceBits w 12 12 <<< 5)

/-- `CI_Insn.gen_instr_assembly` fields (`mask1 = 1 << 5`). -/
def CI_fields (w : Nat) : FieldMap :=
  [("rd", .str (xReg (sliceBits w 11 7))),
   ("rs1", .str (xReg (sliceBits w 11 7))),
   ("uimm", .int (CI_uimm w)),
   ("imm", .int (signext 5 (CI_uimm w)))]

/-- `CSS_Insn` raw immediate: `([12:9] << 2) | ([8:7] << 6)`. -/
def CSS_uimm (w : Nat) : Nat :=
  (sliceBits w 12 9 <<< 2) ||| (sliceBits w 8 7 <<< 6)

/-- `CSS_Insn.gen_instr_assembly` fields: the single register slice
[11:7] feeds rd, rs2 and rs1 alike (`mask1 = 1 << 7`). -/
def CSS_fields (w : Nat) : FieldMap :=
  [("rd", .str (xReg (sliceBits w 11 7))),
   ("rs2", .str (xReg (sliceBits w 11 7))),
   ("rs1", .str (xReg (sliceBits w 11 7))),
   ("uimm", .int (CSS_uimm w)),
   ("imm", .int (signext 7 (CSS_uimm w)))]

/-- `CIW_Insn` raw immediate:
`([5] << 3) | ([6] << 2) | ([12:11] << 4) | ([10:7] << 6)`. -/
def CIW_uimm (w : Nat) : Nat :=
  (sliceBits w 5 5 <<< 3) ||| (sliceBits w 6 6 <<< 2) |||
  (sliceBits w 12 11 <<< 4) ||| (sliceBits w 10 7 <<< 6)

/-- `CIW_Insn.gen_instr_assembly` fields: rd=[4:2] from the compressed
table (`mask1 = 1 << 9`). -/
def CIW_fields (w : Nat) : FieldMap :=
  [("rd", .str (cxReg (sliceBits w 4 2))),
   ("uimm", .int (CIW_uimm w)),
   ("imm", .int (signext 9 (CIW_uimm w)))]

/-- `CL_Insn` raw immediate: `([5] << 2) | ([6] << 6) | ([12:10] << 3)`. -/
def CL_uimm (w : Nat) : Nat :=
  (sliceBits w 5 5 <<< 2) ||| (sliceBits w 6 6 <<< 6) |||
  (sliceBits w 12 10 <<< 3)

/-- `CL_Insn.gen_instr_assembly` fields: rd=[4:2], rs1=[9:7], compressed
table (`mask1 = 1 << 6`). -/
def CL_fields (w : Nat) : FieldMap :=
  [("rd", .str (cxReg (sliceBits w 4 2))),
   ("rs1", .str (cxReg (sliceBits w 9 7))),
   ("uimm", .int (CL_uimm w)),
   ("imm", .int (signext 6 (CL_uimm w)))]

/-- `CS_Insn` raw immediate: `([6:5] << 0) | ([12:10] << 2)` — note the
high part reads word bits [12:10], three bits. -/
def CS_uimm (w : Nat) : Nat :=
  (sliceBits w 6 5 <<< 0) ||| (sliceBits w 12 10 <<< 2)

/-- `CS_Insn.gen_instr_assembly` fields: rd/rs1=[4:2], rs2=[9:7],
compressed table (`mask1 = 1 << 4`). -/
def CS_fields (w : Nat) : FieldMap :=
  [("rd", .str (cxReg (sliceBits w 4 2))),
   ("rs1", .str (cxReg (sliceBits w 4 2))),
   ("rs2", .str (cxReg (sliceBits w 9 7))),
   ("uimm", .int (CS_uimm w)),
   ("imm", .int (signext 4 (CS_uimm w)))]

/-- `CB_Insn` raw immediate: `([2] << 5) | ([6:3] << 1) | ([12:10] << 6)`. -/
def CB_uimm (w : Nat) : Nat :=
  (sliceBits w 2 2 <<< 5) ||| (sliceBits w 6 3 <<< 1) |||
  (sliceBits w 12 10 <<< 6)

/-- `CB_Insn.gen_instr_assembly` fields: rs1=[9:7], compressed table
(`mask1 = 1 << 8`). -/
def CB_fields (w : Nat) : FieldMap :=
  [("rs1", .str (cxReg (sliceBits w 9 7))),
   ("uimm", .int (CB_uimm w)),
   ("imm", .int (signext 8 (CB_uimm w)))]

/-- `CJ_Insn` raw immediate: `([2] << 5) | ([6:3] << 1) | ([12:7] << 6)`. -/
def CJ_uimm (w : Nat) : Nat :=
  (sliceBits w 2 2 <<< 5) ||| (sliceBits w 6 3 <<< 1) |||
  (sliceBits w 12 7 <<< 6)

/-- `CJ_Insn.gen_instr_assembly` fields (`mask1 = 1 << 10`). -/
def CJ_fields (w : Nat) : FieldMap :=
  [("uimm", .int (CJ_uimm w)),
   ("imm", .int (signext 10 (CJ_uimm w)))]

/-!
Template renderer: `Insn.expand_format_string`.  The replacement loop is
Python `str.replace` — scan left to right, replace each non-overlapping
occurrence — embedded on character lists with a structural fuel argument
so that terms reduce in the kernel.
-/

/-- One left-to-right scan of Python `s.replace(pat, sub)`; `fuel` bounds
the recursion and is instantiated with the length of `s` (each step
consumes at least one character, so that much fuel is always enough).
Python's special case of an empty pattern is not modelled (patterns here
are always `'$' + name`). -/
def replaceAux (pat sub : List Char) : Nat → List Char → List Char
  | 0, s => s
  | _ + 1, [] => []
  | fuel + 1, c :: rest =>
    if pat.isPrefixOf (c :: rest) ∧ pat ≠ [] then
      sub ++ replaceAux pat sub fuel ((c :: rest).drop pat.length)
    else
      c :: replaceAux pat sub fuel rest

/-- Python `s.replace(pat, sub)` on character lists. -/
def listReplace (pat sub s : List Char) : List Char :=
  replaceAux pat sub s.length s

/-- Python `res.replace(f, str(v))` on strings. -/
def strReplace (s pat sub : String) : String :=
  String.mk (listReplace pat.data sub.data s.data)

/-- Does `pat` occur as a contiguous run inside `s`? -/
def occursIn (pat : List Char) : List Char → Bool
  | [] => pat.isPrefixOf []
  | c :: rest => pat.isPrefixOf (c :: rest) || occursIn pat rest

/-- The address taken from `fields['imm']` in `expand_format_string`:
`int(fields['imm'], 16)` raises `TypeError` on an int, which the code
catches to use the int itself; on a string the hex parse runs (an
unparsable string would raise an uncaught `ValueError`). -/
def immAddrVal : PyVal → Except PyErr Int
  | .int n => .ok n
  | .str s => pyIntHex s

/-- The `dest` insertion step at the head of `expand_format_string`:
when `fields` has an `imm` key and no `dest` key, resolve the immediate
to an address, wrap negative values by adding `0xffffffffffffffff` on
riscv:rv64 (else `0xffffffff`), and append
`fields['dest'] = format_address(...)`. -/
def expandDest (info : DisasmInfo) (fields : FieldMap) : Except PyErr FieldMap :=
  if hasKey fields "imm" ∧ ¬ hasKey fields "dest" then
    match fields.lookup "imm" with
    | none => .ok fields
    | some v =>
      match immAddrVal v with
      | .error er => .error er
      | .ok a =>
        let a' : Int :=
          if a < 0 then
            if info.archName == "riscv:rv64" then 0xffffffffffffffff + a
            else 0xffffffff + a
          else a
        .ok (fields ++ [("dest", .str (format_address a'))])
  else .ok fields

/-- The replacement loop of `expand_format_string`: for each key `k` in
dictionary (insertion) order, `res = res.replace('$' + k, str(v))`. -/
def runReplacements (fields : FieldMap) (fmt : String) : String :=
  fields.foldl (fun res kv => strReplace res ("$" ++ kv.1) (pyStr kv.2)) fmt

/-- `Insn.expand_format_string`: insert `dest` (possibly raising), then
run the replacement loop over the updated dictionary. -/
def expand_format_string (fmt : String) (info : DisasmInfo)
    (fields : FieldMap) : Except PyErr String :=
  match expandDest info fields with
  | .error er => .error er
  | .ok fs => .ok (runReplacements fs fmt)

-- Renderer sanity checks.
example : strReplace "$rs1" "$rs" "zero" = "zero1" := by decide
example :
    runReplacements [("rd", .str "gp")] "add $rd,$rd" = "add gp,gp" := by
  decide

/-!
Word-building functions for the round-trip properties.  Each follows the
bit layout of spec section 4.2 (which matches the code's extraction
slices for every class except CS): every field value is multiplied into
its bit position, so for in-range field values the fields occupy disjoint
bits.  For split immediates the raw field value `u` is decomposed with
division and modulus by powers of two.
-/

/-- R-layout word: opcode[6:0], rd[11:7], funct3[14:12], rs1[19:15],
rs2[24:20], funct7[31:25]. -/
def encR (op f3 f7 rd rs1 rs2 : Nat) : Nat :=
  op + 128 * rd + 4096 * f3 + 32768 * rs1 + 1048576 * rs2 + 33554432 * f7

/-- I-layout word: imm[31:20] holds the raw 12-bit immediate `u`. -/
def encI (op f3 rd rs1 u : Nat) : Nat :=
  op + 128 * rd + 4096 * f3 + 32768 * rs1 + 1048576 * u

/-- S-layout word: `u` split as imm[4:0] at [11:7] and imm[11:5] at
[31:25]. -/
def encS (op f3 rs1 rs2 u : Nat) : Nat :=
  op + 128 * (u % 32) + 4096 * f3 + 32768 * rs1 + 1048576 * rs2 +
    33554432 * (u / 32)

/-- B-layout word: `u` split as imm[4:1] at [11:8], imm[10:5] at [30:25],
imm[11] at [7], imm[12] at [31]. -/
def encB (op f3 rs1 rs2 u : Nat) : Nat :=
  op + 128 * (u / 2048 % 2) + 256 * (u / 2 % 16) + 4096 * f3 +
    32768 * rs1 + 1048576 * rs2 + 33554432 * (u / 32 % 64) +
    2147483648 * (u / 4096 % 2)

/-- U-layout word: the 20-bit field `u` at [31:12]. -/
def encU (op rd u : Nat) : Nat :=
  op + 128 * rd + 4096 * u

/-- J-layout word: `u` split as imm[19:12] at [19:12], imm[11] at [20],
imm[10:1] at [30:21], imm[20] at [31]. -/
def encJ (op rd u : Nat) : Nat :=
  op + 128 * rd + 4096 * (u / 4096 % 256) + 1048576 * (u / 2048 % 2) +
    2097152 * (u / 2 % 1024) + 2147483648 * (u / 1048576 % 2)

/-- CR-layout word: opcode[1:0], rs2[6:2], rd/rs1[11:7], funct4[15:12]. -/
def encCR (op f4 rds1 rs2 : Nat) : Nat :=
  op + 4 * rs2 + 128 * rds1 + 4096 * f4

/-- CI-layout word: imm[4:0] at [6:2], rd/rs1 at [11:7], imm[5] at [12],
funct3 at [15:13]. -/
def encCI (op f3 rds1 u : Nat) : Nat :=
  op + 4 * (u % 32) + 128 * rds1 + 4096 * (u / 32 % 2) + 8192 * f3

/-- CSS-layout word as the code reads it: the register slice [11:7] lies
entirely inside the immediate slices `[12:9] | [8:7]`, so beyond the
register index `r` at [11:7] the immediate contributes only one free
bit `b` at word bit 12. -/
def encCSS (op f3 r b : Nat) : Nat :=
  op + 128 * r + 4096 * b + 8192 * f3

/-- CIW-layout word: rd at [4:2], imm[9:6] at [10:7], imm[5:4] at
[12:11], imm[3] at [5], imm[2] at [6]. -/
def encCIW (op f3 rd u : Nat) : Nat :=
  op + 4 * rd + 32 * (u / 8 % 2) + 64 * (u / 4 % 2) + 128 * (u / 64 % 16) +
    2048 * (u / 16 % 4) + 8192 * f3

/-- CL-layout word: rd at [4:2], imm[2] at [5], imm[6] at [6], rs1 at
[9:7], imm[5:3] at [12:10]. -/
def encCL (op f3 rd rs1 u : Nat) : Nat :=
  op + 4 * rd + 32 * (u / 4 % 2) + 64 * (u / 64 % 2) + 128 * rs1 +
    1024 * (u / 8 % 8) + 8192 * f3

/-- CS-layout word as the code reads it: rd/rs1 at [4:2], imm[1:0] at
[6:5], rs2 at [9:7], imm[4:2] at [12:10]. -/
def encCS (op f3 rd rs2 u : Nat) : Nat :=
  op + 4 * rd + 32 * (u % 4) + 128 * rs2 + 1024 * (u / 4 % 8) + 8192 * f3

/-- CS-layout word following the spec's section 4.2 table instead, which
puts the high immediate part imm[5:2] at word bits [12:9]. -/
def specEncCS (op f3 rd rs2 u : Nat) : Nat :=
  op + 4 * rd + 32 * (u % 4) + 128 * rs2 + 512 * (u / 4 % 16) + 8192 * f3

/-- CB-layout word: imm[5] at [2], imm[4:1] at [6:3], rs1 at [9:7],
imm[8:6] at [12:10]. -/
def encCB (op f3 rs1 u : Nat) : Nat :=
  op + 4 * (u / 32 % 2) + 8 * (u / 2 % 16) + 128 * rs1 +
    1024 * (u / 64 % 8) + 8192 * f3

/-- CJ-layout word: imm[5] at [2], imm[4:1] at [6:3], imm[11:6] at
[12:7]. -/
def encCJ (op f3 u : Nat) : Nat :=
  op + 4 * (u / 32 % 2) + 8 * (u / 2 % 16) + 128 * (u / 64 % 64) +
    8192 * f3

/-- The sign-extension formula exactly as claim C4 words it:
`(u & (2^w - 1)) - (u & 2^w)`, with `w` the sign-extension width named
by the spec's section 4.2 table. -/
def specC4formula (w u : Nat) : Int :=
  (Int.ofNat (u &&& (2 ^ w - 1))) - (Int.ofNat (u &&& 2 ^ w))


/-!
Arithmetic bridges between the bitwise operators of the embedding and
the division/modulus arithmetic used in the proofs.
-/

/-- A bitwise or of a low part below `2 ^ k` with a part shifted up by
`k` is plain addition. -/
theorem lor_mul_pow (x y k : Nat) (hx : x < 2 ^ k) :
    x ||| y <<< k = x + y * 2 ^ k := by
  apply Nat.eq_of_testBit_eq
  intro i
  rw [Nat.testBit_or, Nat.testBit_shiftLeft, Nat.testBit_to_div_mod,
      Nat.testBit_to_div_mod, Nat.testBit_to_div_mod]
  rcases Nat.lt_or_ge i k with hik | hik
  · have h1 : ¬ (i ≥ k) := by omega
    have e1 : (2 : Nat) ^ k = 2 ^ (k - i - 1) * 2 * 2 ^ i := by
      calc (2 : Nat) ^ k = 2 ^ ((k - i - 1) + (1 + i)) := by congr 1; omega
        _ = 2 ^ (k - i - 1) * (2 ^ 1 * 2 ^ i) := by rw [pow_add, pow_add]
        _ = 2 ^ (k - i - 1) * 2 * 2 ^ i := by ring
    have h2 : (x + y * 2 ^ k) / 2 ^ i % 2 = x / 2 ^ i % 2 := by
      rw [e1, show y * (2 ^ (k - i - 1) * 2 * 2 ^ i) =
            y * 2 ^ (k - i - 1) * 2 * 2 ^ i by ring]
      rw [Nat.add_mul_div_right _ _ (Nat.two_pow_pos i)]
      rw [Nat.add_mul_mod_self_right]
    simp [h1, h2]
  · have hxlt : x < 2 ^ i :=
      lt_of_lt_of_le hx (Nat.pow_le_pow_right (by norm_num) hik)
    have hx0 : x / 2 ^ i = 0 := Nat.div_eq_of_lt hxlt
    have hxk : x / 2 ^ k = 0 := Nat.div_eq_of_lt hx
    have e1 : (2 : Nat) ^ i = 2 ^ k * 2 ^ (i - k) := by
      rw [← pow_add]; congr 1; omega
    have h2 : (x + y * 2 ^ k) / 2 ^ i = y / 2 ^ (i - k) := by
      rw [e1, ← Nat.div_div_eq_div_mul,
          Nat.add_mul_div_right _ _ (Nat.two_pow_pos k), hxk, Nat.zero_add]
    simp [hik, hx0, h2]

/-- A bitwise and with a single power of two extracts that bit. -/
theorem and_pow2 (u k : Nat) : u &&& 2 ^ k = u / 2 ^ k % 2 * 2 ^ k := by
  rw [Nat.and_two_pow, Nat.testBit_to_div_mod]
  rcases Nat.mod_two_eq_zero_or_one (u / 2 ^ k) with h | h <;> simp [h]

/-- The source's sign-extension computation in pure arithmetic. -/
theorem signext_arith (b u : Nat) :
    signext b u =
      ((u % 2 ^ b : Nat) : Int) - ((u / 2 ^ b % 2 * 2 ^ b : Nat) : Int) := by
  unfold signext
  rw [Nat.shiftLeft_eq, one_mul, Nat.and_pow_two_sub_one_eq_mod, and_pow2]
  rfl

/-- The slicing helper in pure arithmetic. -/
theorem sliceBits_arith (w hi lo : Nat) :
    sliceBits w hi lo = w / 2 ^ lo % 2 ^ (hi + 1 - lo) := by
  unfold sliceBits
  rw [Nat.shiftRight_eq_div_pow]

/-- The claim C4 formula in pure arithmetic. -/
theorem specC4formula_arith (w u : Nat) :
    specC4formula w u =
      ((u % 2 ^ w : Nat) : Int) - ((u / 2 ^ w % 2 * 2 ^ w : Nat) : Int) := by
  unfold specC4formula
  rw [Nat.and_pow_two_sub_one_eq_mod, and_pow2]
  rfl

/-- Anding with a mask that covers every set bit changes nothing. -/
theorem land_superset (a m : Nat)
    (h : ∀ i, a.testBit i = true → m.testBit i = true) : a &&& m = a := by
  apply Nat.eq_of_testBit_eq
  intro i
  rw [Nat.testBit_and]
  cases ha : a.testBit i
  · simp
  · simp [h i ha]

/-- A set bit of a number below `2 ^ n` has index below `n`. -/
theorem testBit_true_lt (x n i : Nat) (hx : x < 2 ^ n)
    (h : x.testBit i = true) : i < n := by
  by_contra hc
  have hlt : x < 2 ^ i :=
    lt_of_lt_of_le hx (Nat.pow_le_pow_right (by norm_num) (by omega))
  rw [Nat.testBit_lt_two_pow hlt] at h
  exact Bool.false_ne_true h

/-!
Mask-absorption lemmas: with in-range attribute values every fixed bit
lies inside the select mask, for each of the five instr/mask shapes.
-/

/-- R shape: opcode, funct3 at 12, funct7 at 25. -/
theorem masked_opf3f7 (op f3 f7 : Nat) (hop : op < 128) (hf3 : f3 < 8)
    (hf7 : f7 < 128) :
    gen_opfunc3funct7_instr op f3 f7 &&& gen_opfunc3funct7_mask =
      gen_opfunc3funct7_instr op f3 f7 := by
  apply land_superset
  intro i hi
  unfold gen_opfunc3funct7_instr at hi
  unfold gen_opfunc3funct7_mask
  rw [Nat.testBit_or, Nat.testBit_or, Nat.testBit_shiftLeft,
      Nat.testBit_shiftLeft] at hi ⊢
  rcases Bool.or_eq_true_iff.mp hi with h | h
  · rcases Bool.or_eq_true_iff.mp h with h' | h'
    · have hlt : i < 7 := testBit_true_lt op 7 i (by omega) h'
      interval_cases i <;> decide
    · rcases Bool.and_eq_true_iff.mp h' with ⟨hd, hb⟩
      have h12 : 12 ≤ i := by exact of_decide_eq_true hd
      have hlt : i - 12 < 3 := testBit_true_lt f3 3 (i - 12) (by omega) hb
      have hlt2 : i < 15 := by omega
      interval_cases i <;> decide
  · rcases Bool.and_eq_true_iff.mp h with ⟨hd, hb⟩
    have h25 : 25 ≤ i := by exact of_decide_eq_true hd
    have hlt : i - 25 < 7 := testBit_true_lt f7 7 (i - 25) (by omega) hb
    have hlt2 : i < 32 := by omega
    interval_cases i <;> decide

/-- I/S/B shape: opcode, funct3 at 12. -/
theorem masked_opf3 (op f3 : Nat) (hop : op < 128) (hf3 : f3 < 8) :
    gen_opfunc3_instr op f3 &&& gen_opfunc3_mask = gen_opfunc3_instr op f3 := by
  apply land_superset
  intro i hi
  unfold gen_opfunc3_instr at hi
  unfold gen_opfunc3_mask
  rw [Nat.testBit_or, Nat.testBit_shiftLeft] at hi ⊢
  rcases Bool.or_eq_true_iff.mp hi with h | h
  · have hlt : i < 7 := testBit_true_lt op 7 i (by omega) h
    interval_cases i <;> decide
  · rcases Bool.and_eq_true_iff.mp h with ⟨hd, hb⟩
    have h12 : 12 ≤ i := by exact of_decide_eq_true hd
    have hlt : i - 12 < 3 := testBit_true_lt f3 3 (i - 12) (by omega) hb
    have hlt2 : i < 15 := by omega
    interval_cases i <;> decide

/-- U/J shape: opcode only. -/
theorem masked_op (op : Nat) (hop : op < 128) :
    gen_op_instr op &&& gen_op_mask = gen_op_instr op := by
  apply land_superset
  intro i hi
  unfold gen_op_instr at hi
  unfold gen_op_mask
  have hlt : i < 7 := testBit_true_lt op 7 i (by omega) hi
  interval_cases i <;> decide

/-- CR shape: two-bit opcode, funct4 at 12. -/
theorem masked_c_opf4 (op f4 : Nat) (hop : op < 4) (hf4 : f4 < 16) :
    gen_c_opfunc4_instr op f4 &&& gen_c_opfunc4_mask =
      gen_c_opfunc4_instr op f4 := by
  apply land_superset
  intro i hi
  unfold gen_c_opfunc4_instr at hi
  unfold gen_c_opfunc4_mask
  rw [Nat.testBit_or, Nat.testBit_shiftLeft] at hi ⊢
  rcases Bool.or_eq_true_iff.mp hi with h | h
  · have hlt : i < 2 := testBit_true_lt op 2 i (by omega) h
    interval_cases i <;> decide
  · rcases Bool.and_eq_true_iff.mp h with ⟨hd, hb⟩
    have h12 : 12 ≤ i := by exact of_decide_eq_true hd
    have hlt : i - 12 < 4 := testBit_true_lt f4 4 (i - 12) (by omega) hb
    have hlt2 : i < 16 := by omega
    interval_cases i <;> decide

/-- Compressed funct3 shape: two-bit opcode, funct3 at 13. -/
theorem masked_c_opf3 (op f3 : Nat) (hop : op < 4) (hf3 : f3 < 8) :
    gen_c_opfunc3_instr op f3 &&& gen_c_opfunc3_mask =
      gen_c_opfunc3_instr op f3 := by
  apply land_superset
  intro i hi
  unfold gen_c_opfunc3_instr at hi
  unfold gen_c_opfunc3_mask
  rw [Nat.testBit_or, Nat.testBit_shiftLeft] at hi ⊢
  rcases Bool.or_eq_true_iff.mp hi with h | h
  · have hlt : i < 2 := testBit_true_lt op 2 i (by omega) h
    interval_cases i <;> decide
  · rcases Bool.and_eq_true_iff.mp h with ⟨hd, hb⟩
    have h13 : 13 ≤ i := by exact of_decide_eq_true hd
    have hlt : i - 13 < 3 := testBit_true_lt f3 3 (i - 13) (by omega) hb
    have hlt2 : i < 16 := by omega
    interval_cases i <;> decide

/-!
Matcher lemmas and claim C1.
-/

/-- The code's per-entry test agrees with the spec's matching condition. -/
theorem compare_with_insn_iff (byte : Nat) (e : Entry) (len : Nat) :
    compare_with_insn byte e len = true ↔ entrySpecMatches e byte len := by
  unfold compare_with_insn entrySpecMatches
  rcases eq_or_ne len e.len with he | he
  · subst he
    rw [if_neg (fun h => h rfl)]
    constructor
    · intro h
      exact ⟨rfl, (beq_iff_eq.mp h).symm⟩
    · rintro ⟨-, h2⟩
      exact beq_iff_eq.mpr h2.symm
  · rw [if_pos he]
    constructor
    · intro h
      exact Bool.noConfusion h
    · rintro ⟨h1, -⟩
      exact absurd h1.symm he

/-- No-match characterisation of the scan. -/
theorem compare_with_insns_none_iff (insns : List Entry) (byte len : Nat) :
    compare_with_insns insns byte len = none ↔
      ∀ e ∈ insns, ¬ entrySpecMatches e byte len := by
  induction insns with
  | nil => simp [compare_with_insns]
  | cons i rest ih =>
    unfold compare_with_insns
    by_cases hc : compare_with_insn byte i len = true
    · have hm : entrySpecMatches i byte len := (compare_with_insn_iff byte i len).mp hc
      rw [if_pos hc]
      constructor
      · intro h
        exact Option.noConfusion h
      · intro hall
        exact absurd hm (hall i (List.mem_cons_self i rest))
    · have hm : ¬ entrySpecMatches i byte len := fun h =>
        hc ((compare_with_insn_iff byte i len).mpr h)
      rw [if_neg hc, ih]
      constructor
      · intro hall e he
        rcases List.mem_cons.mp he with rfl | h2
        · exact hm
        · exact hall e h2
      · intro hall e he
        exact hall e (List.mem_cons_of_mem i he)

/-- First-match characterisation of the scan. -/
theorem compare_with_insns_some (insns : List Entry) (byte len : Nat)
    (e : Entry) (h : compare_with_insns insns byte len = some e) :
    entrySpecMatches e byte len ∧
      ∃ l1 l2, insns = l1 ++ e :: l2 ∧
        ∀ e2 ∈ l1, ¬ entrySpecMatches e2 byte len := by
  induction insns with
  | nil => simp [compare_with_insns] at h
  | cons i rest ih =>
    unfold compare_with_insns at h
    by_cases hc : compare_with_insn byte i len = true
    · rw [if_pos hc] at h
      obtain rfl : i = e := Option.some.inj h
      exact ⟨(compare_with_insn_iff byte i len).mp hc, [], rest, rfl, by simp⟩
    · rw [if_neg hc] at h
      obtain ⟨hm, l1, l2, heq, hall⟩ := ih h
      refine ⟨hm, i :: l1, l2, by simp [heq], ?_⟩
      intro e2 he2
      rcases List.mem_cons.mp he2 with rfl | h2
      · exact fun hsm => hc ((compare_with_insn_iff byte e2 len).mpr hsm)
      · exact hall e2 h2

/-- C1: the matcher scans the catalog in order; an entry matches iff its
fixed byte length equals the given length and
`(word & entry.select_mask) == entry.fixed_bits`; the first such entry is
returned, no-match is returned iff no entry satisfies both conditions,
and in particular an entry of one byte length never matches a request of
another length regardless of bit pattern. -/
theorem c1_matcher_contract (insns : List Entry) (word len : Nat) :
    (∀ e, compare_with_insn word e len = true ↔ entrySpecMatches e word len) ∧
    (compare_with_insns insns word len = none ↔
      ∀ e ∈ insns, ¬ entrySpecMatches e word len) ∧
    (∀ e, compare_with_insns insns word len = some e →
      entrySpecMatches e word len ∧
        ∃ l1 l2, insns = l1 ++ e :: l2 ∧
          ∀ e2 ∈ l1, ¬ entrySpecMatches e2 word len) ∧
    (∀ e ∈ insns, e.len = 4 → len = 2 → ¬ entrySpecMatches e word len) := by
  refine ⟨fun e => compare_with_insn_iff word e len,
          compare_with_insns_none_iff insns word len,
          fun e h => compare_with_insns_some insns word len e h,
          ?_⟩
  rintro e _ h4 h2 ⟨hlen, _⟩
  omega

/-- Two distinct catalog entries that both structurally match word 11 at
length 4 (opcode 0x0b, funct3 0, funct7 0). -/
def entTest1 : Entry := R_insn_mk 11 0 0 "one $rd" "R"

/-- Second entry for the first-match-wins scenario. -/
def entTest2 : Entry := R_insn_mk 11 0 0 "two $rd" "R"

/-- Witness for C1: on a two-entry catalog whose entries both match,
the scan returns the first. -/
theorem c1_matcher_contract_witness :
    entrySpecMatches entTest1 11 4 ∧
      ∃ l1 l2, [entTest1, entTest2] = l1 ++ entTest1 :: l2 ∧
        ∀ e2 ∈ l1, ¬ entrySpecMatches e2 11 4 :=
  (c1_matcher_contract [entTest1, entTest2] 11 4).2.2.1 entTest1 (by decide)

/-- C7: when the catalog source document cannot be obtained or parsed
(`fetch_xml` returns `None`), the handler holds an empty catalog rather
than failing, and on an empty catalog the matcher returns no-match for
every input word and length. -/
theorem c7_empty_catalog :
    handler_insns none = .ok ([], []) ∧
    ∀ word len : Nat, compare_with_insns [] word len = none :=
  ⟨rfl, fun _ _ => rfl⟩

/-- A catalog node whose `opcode` attribute value 0x80 exceeds the
7-bit opcode field of the R select mask. -/
def elemBigOpcode : Elem :=
  ⟨[("type", "R"), ("opcode", "80"), ("str", "x"),
    ("funct3", "0"), ("funct7", "0")]⟩

/-- Counterexample to C9 as stated: for the unsigned attribute value
opcode = 0x80 the constructed entry has `fixed_bits = 0x80` but
`fixed_bits & select_mask = 0`, so the invariant does not hold for all
unsigned attribute values. -/
theorem c9_counterexample :
    genInsnFor elemBigOpcode = .ok (R_insn_mk 128 0 0 "x" "R") ∧
    (R_insn_mk 128 0 0 "x" "R").insn &&& (R_insn_mk 128 0 0 "x" "R").mask ≠
      (R_insn_mk 128 0 0 "x" "R").insn := by
  exact ⟨rfl, by decide⟩

/-- C9 amended: the invariant `fixed_bits == fixed_bits & select_mask`
holds for every catalog entry whose attribute values fit their bit
fields: opcode below 2^7 (2^2 for the compressed classes), funct3 below
2^3, funct4 below 2^4, funct7 below 2^7.  The conjuncts cover the
fourteen classes through their constructors (`C3_insn_mk` is shared by
CI, CSS, CIW, CL, CS, CB and CJ, whose fixed bits and masks are computed
identically). -/
theorem c9_amended :
    (∀ op f3 f7 fmt ty, op < 128 → f3 < 8 → f7 < 128 →
      (R_insn_mk op f3 f7 fmt ty).insn &&& (R_insn_mk op f3 f7 fmt ty).mask =
        (R_insn_mk op f3 f7 fmt ty).insn) ∧
    (∀ op f3 fmt ty, op < 128 → f3 < 8 →
      (I_insn_mk op f3 fmt ty).insn &&& (I_insn_mk op f3 fmt ty).mask =
        (I_insn_mk op f3 fmt ty).insn) ∧
    (∀ op f3 fmt ty, op < 128 → f3 < 8 →
      (S_insn_mk op f3 fmt ty).insn &&& (S_insn_mk op f3 fmt ty).mask =
        (S_insn_mk op f3 fmt ty).insn) ∧
    (∀ op f3 fmt ty, op < 128 → f3 < 8 →
      (B_insn_mk op f3 fmt ty).insn &&& (B_insn_mk op f3 fmt ty).mask =
        (B_insn_mk op f3 fmt ty).insn) ∧
    (∀ op fmt ty, op < 128 →
      (U_insn_mk op fmt ty).insn &&& (U_insn_mk op fmt ty).mask =
        (U_insn_mk op fmt ty).insn) ∧
    (∀ op fmt ty, op < 128 →
      (J_insn_mk op fmt ty).insn &&& (J_insn_mk op fmt ty).mask =
        (J_insn_mk op fmt ty).insn) ∧
    (∀ op f4 fmt ty, op < 4 → f4 < 16 →
      (CR_insn_mk op f4 fmt ty).insn &&& (CR_insn_mk op f4 fmt ty).mask =
        (CR_insn_mk op f4 fmt ty).insn) ∧
    (∀ op f3 fmt ty, op < 4 → f3 < 8 →
      (C3_insn_mk op f3 fmt ty).insn &&& (C3_insn_mk op f3 fmt ty).mask =
        (C3_insn_mk op f3 fmt ty).insn) := by
  refine ⟨?_, ?_, ?_, ?_, ?_, ?_, ?_, ?_⟩
  · intro op f3 f7 fmt ty hop hf3 hf7
    exact masked_opf3f7 op f3 f7 hop hf3 hf7
  · intro op f3 fmt ty hop hf3
    exact masked_opf3 op f3 hop hf3
  · intro op f3 fmt ty hop hf3
    exact masked_opf3 op f3 hop hf3
  · intro op f3 fmt ty hop hf3
    exact masked_opf3 op f3 hop hf3
  · intro op fmt ty hop
    exact masked_op op hop
  · intro op fmt ty hop
    exact masked_op op hop
  · intro op f4 fmt ty hop hf4
    exact masked_c_opf4 op f4 hop hf4
  · intro op f3 fmt ty hop hf3
    exact masked_c_opf3 op f3 hop hf3

/-- Witness for C9 amended, at the end-to-end scenario entry
opcode 0x0b, funct3 0, funct7 0. -/
theorem c9_amended_witness :
    (R_insn_mk 11 0 0 "w" "R").insn &&& (R_insn_mk 11 0 0 "w" "R").mask =
      (R_insn_mk 11 0 0 "w" "R").insn :=
  c9_amended.1 11 0 0 "w" "R" (by decide) (by decide) (by decide)

/-- C3: for class I, raw immediate bits 0x800 decode to the signed value
-2048 and raw bits 0x7FF to 2047 (shown on the words 0x80000013 and
0x7FF00013); in general a raw field value with bit 11 set decodes
negative, and one with bit 11 clear decodes to its raw magnitude. -/
theorem c3_i_sign_extension :
    ((I_fields 0x80000013).lookup "imm" = some (.int (-2048))) ∧
    ((I_fields 0x7ff00013).lookup "imm" = some (.int 2047)) ∧
    (∀ w v, (I_fields w).lookup "imm" = some (.int v) →
      (I_uimm w &&& 0x800 ≠ 0 → v < 0) ∧
      (I_uimm w &&& 0x800 = 0 → v = (I_uimm w : Int))) := by
  refine ⟨by decide, by decide, ?_⟩
  intro w v hl
  have hrfl : (I_fields w).lookup "imm" =
      some (.int (signext 11 (I_uimm w))) := rfl
  rw [hrfl] at hl
  have hv : v = signext 11 (I_uimm w) :=
    (PyVal.int.inj (Option.some.inj hl)).symm
  subst hv
  have hu : I_uimm w < 4096 := by
    unfold I_uimm
    rw [sliceBits_arith]
    exact Nat.mod_lt _ (by norm_num)
  constructor
  · intro hbit
    rw [show (0x800 : Nat) = 2 ^ 11 from rfl, and_pow2] at hbit
    rw [signext_arith]
    have h2 : I_uimm w / 2 ^ 11 % 2 = 1 := by omega
    rw [h2]
    have h3 : I_uimm w % 2 ^ 11 < 2 ^ 11 := Nat.mod_lt _ (by norm_num)
    omega
  · intro hbit
    rw [show (0x800 : Nat) = 2 ^ 11 from rfl, and_pow2] at hbit
    rw [signext_arith]
    have h2 : I_uimm w / 2 ^ 11 % 2 = 0 := by omega
    rw [h2]
    have h3 : I_uimm w % 2 ^ 11 = I_uimm w % 2048 := rfl
    omega

/-- Witness for C3: instantiating the general part at the word whose
immediate field is 0x800. -/
theorem c3_i_sign_extension_witness : (-2048 : Int) < 0 :=
  ((c3_i_sign_extension.2.2 0x80000013 (-2048) (by decide)).1 (by decide))

/-- Counterexample to C4 as stated: for class I the spec's section 4.2
table names width 12, but the decoder's immediate at raw field value
0x800 is -2048 while the claim's formula `(u & (2^12-1)) - (u & 2^12)`
gives +2048 (it would treat the always-zero bit 12 as the sign).  The
decoder in fact uses `1 << 11`, i.e. bit 11. -/
theorem c4_counterexample :
    ((I_fields 0x80000013).lookup "imm" =
      some (.int (signext 11 (I_uimm 0x80000013)))) ∧
    signext 11 (I_uimm 0x80000013) = -2048 ∧
    specC4formula 12 (I_uimm 0x80000013) = 2048 ∧
    signext 11 (I_uimm 0x80000013) ≠ specC4formula 12 (I_uimm 0x80000013) := by
  exact ⟨rfl, by decide, by decide, by decide⟩

/-- C4 amended: for every class the decoder computes the signed
immediate as `(u & (2^(w-1) - 1)) - (u & 2^(w-1))` where `w` is the
class's sign-extension width from the section 4.2 table — the sign bit is
bit `w - 1`, not bit `w`.  The literal widths below are the table widths
minus one: I and S use 11 (table 12), B uses 12 (table 13), J uses 20
(table 21), CI uses 5 (table 6), CSS uses 7 (table 8), CIW uses 9 (table
10), CL uses 6 (table 7), CS uses 4 (table 5), CB uses 8 (table 9), CJ
uses 10 (table 11); class U stores the raw 20-bit field with no sign
handling, and the formula at bit `w - 1` is equivalent to two's-complement
sign extension from `w` bits (final conjunct, for the 12-bit I field). -/
theorem c4_amended :
    (∀ b u, signext b u = specC4formula b u) ∧
    (∀ w, (I_fields w).lookup "imm" =
      some (.int (specC4formula 11 (I_uimm w)))) ∧
    (∀ w, (S_fields w).lookup "imm" =
      some (.int (specC4formula 11 (S_uimm w)))) ∧
    (∀ info w, (B_fields info w).lookup "imm" =
      some (.str (pyHex (info.address + specC4formula 12 (B_uimm w))))) ∧
    (∀ info w, (J_fields info w).lookup "imm" =
      some (.str (pyHex (info.address + specC4formula 20 (J_uimm w))))) ∧
    (∀ w, (U_fields w).lookup "imm" = some (.int (U_uimm w >>> 12))) ∧
    (∀ w, (CI_fields w).lookup "imm" =
      some (.int (specC4formula 5 (CI_uimm w)))) ∧
    (∀ w, (CSS_fields w).lookup "imm" =
      some (.int (specC4formula 7 (CSS_uimm w)))) ∧
    (∀ w, (CIW_fields w).lookup "imm" =
      some (.int (specC4formula 9 (CIW_uimm w)))) ∧
    (∀ w, (CL_fields w).lookup "imm" =
      some (.int (specC4formula 6 (CL_uimm w)))) ∧
    (∀ w, (CS_fields w).lookup "imm" =
      some (.int (specC4formula 4 (CS_uimm w)))) ∧
    (∀ w, (CB_fields w).lookup "imm" =
      some (.int (specC4formula 8 (CB_uimm w)))) ∧
    (∀ w, (CJ_fields w).lookup "imm" =
      some (.int (specC4formula 10 (CJ_uimm w)))) ∧
    (∀ u, u < 2 ^ 12 →
      specC4formula 11 u = ((u : Int) + 2 ^ 11) % 2 ^ 12 - 2 ^ 11) := by
  have hs : ∀ b u, signext b u = specC4formula b u := by
    intro b u
    rw [signext_arith, specC4formula_arith]
  refine ⟨hs, ?_, ?_, ?_, ?_, ?_, ?_, ?_, ?_, ?_, ?_, ?_, ?_, ?_⟩
  · intro w
    rw [← hs]
    rfl
  · intro w
    rw [← hs]
    rfl
  · intro info w
    rw [← hs]
    rfl
  · intro info w
    rw [← hs]
    rfl
  · intro w
    rfl
  · intro w
    rw [← hs]
    rfl
  · intro w
    rw [← hs]
    rfl
  · intro w
    rw [← hs]
    rfl
  · intro w
    rw [← hs]
    rfl
  · intro w
    rw [← hs]
    rfl
  · intro w
    rw [← hs]
    rfl
  · intro w
    rw [← hs]
    rfl
  · intro u hu
    rw [specC4formula_arith]
    have h1 : u % 2 ^ 11 < 2 ^ 11 := Nat.mod_lt _ (by norm_num)
    omega

/-- Witness for C4 amended: the corrected formula and the
two's-complement equivalence at the C3 sign-bit value 0x800. -/
theorem c4_amended_witness :
    specC4formula 11 0x800 = ((0x800 : Int) + 2 ^ 11) % 2 ^ 12 - 2 ^ 11 :=
  c4_amended.2.2.2.2.2.2.2.2.2.2.2.2.2 0x800 (by decide)

/-!
Claim C6: per-node error recovery in the catalog loader.
-/

/-- A node with a non-hex `opcode` value: `int('zz', 16)` raises
`ValueError`, which `create_insns` does not catch. -/
def elemNonHex : Elem :=
  ⟨[("type", "R"), ("opcode", "zz"), ("str", "bad"),
    ("funct3", "0"), ("funct7", "0")]⟩

/-- A well-formed R node. -/
def elemGood : Elem :=
  ⟨[("type", "R"), ("opcode", "b"), ("str", "good"),
    ("funct3", "0"), ("funct7", "0")]⟩

/-- A node missing its required `funct3`/`funct7` attributes: the
constructor raises `KeyError`, which `create_insns` does catch. -/
def elemMissingKey : Elem :=
  ⟨[("type", "R"), ("opcode", "b"), ("str", "m")]⟩

/-- Counterexample to C6 as stated: a node whose `opcode` is not
parsable as hexadecimal aborts the whole load with an uncaught
`ValueError` — the following well-formed node (which alone constructs
fine) is not loaded. -/
theorem c6_counterexample :
    create_insns [elemNonHex, elemGood] = .error .valueError ∧
    genInsnFor elemGood = .ok (R_insn_mk 11 0 0 "good" "R") :=
  ⟨rfl, rfl⟩

/-- C6 amended: a node whose failure is a missing key (`KeyError`) — and
whose `type` attribute is present, since the diagnostic handler reads it
— is rejected with a diagnostic while the remaining nodes load in
document order; but a node with a value not parsable as hexadecimal
raises an uncaught `ValueError` that aborts the remainder of the load. -/
theorem c6_amended :
    (∀ elems : List Elem,
      (∀ e ∈ elems, (∃ i, genInsnFor e = .ok i) ∨
        (genInsnFor e = .error PyErr.keyError ∧
          ∃ t, attrStr e "type" = .ok t)) →
      ∃ ds, create_insns elems =
        .ok (elems.filterMap (fun e => (genInsnFor e).toOption), ds)) ∧
    (∀ l1 (e : Elem) l2, genInsnFor e = .error PyErr.valueError →
      (∀ e2 ∈ l1, (∃ i, genInsnFor e2 = .ok i) ∨
        (genInsnFor e2 = .error PyErr.keyError ∧
          ∃ t, attrStr e2 "type" = .ok t)) →
      create_insns (l1 ++ e :: l2) = .error PyErr.valueError) := by
  constructor
  · intro elems
    induction elems with
    | nil => intro _; exact ⟨[], rfl⟩
    | cons e rest ih =>
      intro h
      obtain ⟨ds, hds⟩ := ih (fun e2 he2 => h e2 (List.mem_cons_of_mem e he2))
      rcases h e (List.mem_cons_self e rest) with ⟨i, hi⟩ | ⟨hk, t, ht⟩
      · refine ⟨ds, ?_⟩
        simp only [create_insns, hi, hds, List.filterMap_cons, Except.toOption]
      · refine ⟨("Unknown Instruction Type: " ++ t) :: ds, ?_⟩
        simp only [create_insns, hk, ht, hds, List.filterMap_cons,
          Except.toOption]
  · intro l1
    induction l1 with
    | nil =>
      intro e l2 hv _
      simp only [List.nil_append, create_insns, hv]
    | cons a l1 ih =>
      intro e l2 hv hall
      have hrest := ih e l2 hv (fun e2 he2 => hall e2 (List.mem_cons_of_mem a he2))
      rcases hall a (List.mem_cons_self a l1) with ⟨i, hi⟩ | ⟨hk, t, ht⟩
      · simp only [List.cons_append, create_insns, hi, List.append_eq, hrest]
      · simp only [List.cons_append, create_insns, hk, ht, List.append_eq,
          hrest]

/-- Witness for C6 amended: a missing-key node followed by a good node
loads exactly the good node's entry. -/
theorem c6_amended_witness :
    ∃ ds, create_insns [elemMissingKey, elemGood] =
      .ok ([elemMissingKey, elemGood].filterMap
            (fun e => (genInsnFor e).toOption), ds) :=
  c6_amended.1 [elemMissingKey, elemGood] (by
    intro e he
    rcases List.mem_cons.mp he with rfl | he2
    · exact Or.inr ⟨rfl, "R", rfl⟩
    · rcases List.mem_cons.mp he2 with rfl | he3
      · exact Or.inl ⟨R_insn_mk 11 0 0 "good" "R", rfl⟩
      · exact absurd he3 (List.not_mem_nil e))

/-!
Claim C8: placeholder replacement.
-/

/-- A pattern that occurs nowhere in the scanned text is never replaced. -/
theorem replaceAux_no_occur (pat sub : List Char) :
    ∀ fuel s, occursIn pat s = false → replaceAux pat sub fuel s = s := by
  intro fuel
  induction fuel with
  | zero => intro s _; rfl
  | succ fuel ih =>
    intro s h
    match s with
    | [] => rfl
    | c :: rest =>
      unfold occursIn at h
      rcases Bool.or_eq_false_iff.mp h with ⟨h1, h2⟩
      unfold replaceAux
      rw [if_neg]
      · rw [ih rest h2]
      · rintro ⟨hp, -⟩
        rw [h1] at hp
        exact Bool.noConfusion hp

/-- `str.replace` identity when the pattern does not occur. -/
theorem listReplace_no_occur (pat sub s : List Char)
    (h : occursIn pat s = false) : listReplace pat sub s = s :=
  replaceAux_no_occur pat sub s.length s h

/-- The replacement loop leaves a template unchanged when no field's
`$name` pattern occurs in it. -/
theorem runReplacements_no_occur (fields : FieldMap) :
    ∀ fmt : String,
      (∀ kv ∈ fields, occursIn ('$' :: kv.1.data) fmt.data = false) →
      runReplacements fields fmt = fmt := by
  induction fields with
  | nil => intro fmt _; rfl
  | cons kv rest ih =>
    intro fmt h
    have h1 : strReplace fmt ("$" ++ kv.1) (pyStr kv.2) = fmt := by
      unfold strReplace
      have hd : ("$" ++ kv.1).data = '$' :: kv.1.data := rfl
      rw [hd, listReplace_no_occur _ _ _ (h kv (List.mem_cons_self kv rest))]
    unfold runReplacements
    rw [List.foldl_cons, h1]
    exact ih fmt (fun kv2 hkv2 => h kv2 (List.mem_cons_of_mem kv hkv2))

/-- Counterexample to C8 as stated: with the single field `rs` and the
template `$rs1`, the placeholder `$rs1` has no corresponding field yet is
not left verbatim — sequential textual replacement turns it into
`zero1` because `$rs` is a prefix of `$rs1`. -/
theorem c8_counterexample :
    expand_format_string "$rs1" ⟨0, "riscv:rv32"⟩ [("rs", .str "zero")] =
      .ok "zero1" ∧
    ("zero1" : String) ≠ "$rs1" ∧
    occursIn ('$' :: "rs1".data) "zero1".data = false := by
  exact ⟨rfl, by decide, by decide⟩

/-- C8 amended: the renderer performs sequential textual replacement of
`'$' + name` by the stringified value, one field at a time in map order;
a placeholder whose name has no corresponding field is left verbatim
provided no field's `$name` pattern occurs inside the template text (in
particular when no field name is a prefix of the placeholder's name).
First conjunct: a template in which no field pattern occurs at all is
returned unchanged.  Second conjunct: the spec's end-to-end scenario —
template `$opcode fake $rd,$rs1,$rs2` on an R word with rd=3, rs1=4,
rs2=5 renders every known placeholder with its register name and leaves
the fieldless `$opcode` verbatim. -/
theorem c8_amended :
    (∀ (info : DisasmInfo) (fields : FieldMap) (fmt : String),
      hasKey fields "imm" = false →
      (∀ kv ∈ fields, occursIn ('$' :: kv.1.data) fmt.data = false) →
      expand_format_string fmt info fields = .ok fmt) ∧
    (expand_format_string "$opcode fake $rd,$rs1,$rs2" ⟨0, "riscv:rv32"⟩
      (R_fields (encR 11 0 0 3 4 5)) = .ok "$opcode fake gp,tp,t0") := by
  constructor
  · intro info fields fmt h1 h2
    unfold expand_format_string expandDest
    rw [if_neg]
    · show Except.ok (runReplacements fields fmt) = Except.ok fmt
      rw [runReplacements_no_occur fields fmt h2]
    · rintro ⟨hk, -⟩
      rw [h1] at hk
      exact Bool.noConfusion hk
  · rfl

/-- Witness for C8 amended: a field named `zzz` leaves the unrelated
`$opcode` template untouched. -/
theorem c8_amended_witness :
    expand_format_string "$opcode" ⟨0, "riscv:rv32"⟩ [("zzz", .str "v")] =
      .ok "$opcode" :=
  c8_amended.1 ⟨0, "riscv:rv32"⟩ [("zzz", .str "v")] "$opcode" (by decide)
    (by
      intro kv hkv
      rcases List.mem_cons.mp hkv with rfl | h
      · decide
      · exact absurd h (List.not_mem_nil kv))


/-!
Round trip of Python `hex()` and `int(s, 16)` on the model.
-/

/-- Parsing distributes over list append. -/
theorem parseHexAcc_append (l1 : List Char) :
    ∀ (acc : Nat) (l2 : List Char),
      parseHexAcc acc (l1 ++ l2) =
        match parseHexAcc acc l1 with
        | some a => parseHexAcc a l2
        | none => none := by
  induction l1 with
  | nil => intro acc l2; rfl
  | cons c cs ih =>
    intro acc l2
    simp only [List.cons_append, parseHexAcc]
    rcases h : hexCharVal c with - | d
    · simp only [h]
    · simp only [h]
      exact ih (acc * 16 + d) l2

/-- Formatting then reading one digit is the identity. -/
theorem hexCharVal_hexDigitChar (d : Nat) (h : d < 16) :
    hexCharVal (hexDigitChar d) = some d := by
  interval_cases d <;> rfl

/-- Digits written little-endian then reversed parse back, with the
accumulator scaled by the digit count. -/
theorem parse_rev_digits :
    ∀ (fuel n acc : Nat), n ≤ fuel →
      parseHexAcc acc ((hexDigitsAux fuel n).reverse) =
        some (acc * 16 ^ (hexDigitsAux fuel n).length + n) := by
  intro fuel
  induction fuel with
  | zero =>
    intro n acc h
    have h0 : n = 0 := by omega
    subst h0
    simp [hexDigitsAux, parseHexAcc]
  | succ fuel ih =>
    intro n acc h
    rcases n with - | m
    · simp [hexDigitsAux, parseHexAcc]
    · have hstep : hexDigitsAux (fuel + 1) (m + 1) =
          hexDigitChar ((m + 1) % 16) :: hexDigitsAux fuel ((m + 1) / 16) :=
        rfl
      rw [hstep, List.reverse_cons, parseHexAcc_append]
      have hdiv : (m + 1) / 16 ≤ fuel := by omega
      rw [ih ((m + 1) / 16) acc hdiv]
      show parseHexAcc _ [hexDigitChar ((m + 1) % 16)] = _
      unfold parseHexAcc
      rw [hexCharVal_hexDigitChar _ (Nat.mod_lt _ (by norm_num))]
      show some _ = some _
      congr 1
      rw [List.length_cons, pow_succ]
      have hdm := Nat.div_add_mod (m + 1) 16
      ring_nf
      omega

/-- The hex digit string of `m` parses back to `m`. -/
theorem parseHexAcc_natHexDigits (m : Nat) :
    parseHexAcc 0 (natHexDigits m).data = some m := by
  unfold natHexDigits
  by_cases h0 : m = 0
  · subst h0
    rfl
  · rw [if_neg h0]
    show parseHexAcc 0 (hexDigitsAux m m).reverse = some m
    rw [parse_rev_digits m m 0 (le_refl m)]
    simp

/-- The hex digit string is never empty. -/
theorem natHexDigits_ne_nil (m : Nat) : (natHexDigits m).data ≠ [] := by
  unfold natHexDigits
  by_cases h0 : m = 0
  · subst h0
    simp
  · rw [if_neg h0]
    rcases m with - | k
    · exact absurd rfl h0
    · show (hexDigitsAux (k + 1) (k + 1)).reverse ≠ []
      have hstep : hexDigitsAux (k + 1) (k + 1) =
          hexDigitChar ((k + 1) % 16) :: hexDigitsAux k ((k + 1) / 16) := rfl
      rw [hstep]
      simp

/-- A `0x`-marked hex digit string parses to its value. -/
theorem parseHexNat_marked (m : Nat) :
    parseHexNat ('0' :: 'x' :: (natHexDigits m).data) = .ok m := by
  unfold parseHexNat
  rcases hd : (natHexDigits m).data with - | ⟨c, cs⟩
  · exact absurd hd (natHexDigits_ne_nil m)
  · have hp := parseHexAcc_natHexDigits m
    rw [hd] at hp
    show (match parseHexAcc 0 (c :: cs) with
          | some v => Except.ok v
          | none => Except.error PyErr.valueError) = Except.ok m
    rw [hp]

/-- Round trip: Python `int(hex(n), 16) == n` on the model. -/
theorem pyIntHex_pyHex (n : Int) : pyIntHex (pyHex n) = .ok n := by
  unfold pyHex
  by_cases hn : n < 0
  · rw [if_pos hn]
    have hdata : ("-0x" ++ natHexDigits n.natAbs).data =
        '-' :: '0' :: 'x' :: (natHexDigits n.natAbs).data := by
      rcases hds : natHexDigits n.natAbs with ⟨l⟩
      rfl
    unfold pyIntHex
    rw [hdata]
    show (match parseHexNat ('0' :: 'x' :: (natHexDigits n.natAbs).data) with
          | Except.ok v => Except.ok (-(v : Int))
          | Except.error e => Except.error e) = Except.ok n
    rw [parseHexNat_marked]
    show Except.ok (-((n.natAbs : Nat) : Int)) = Except.ok n
    congr 1
    omega
  · rw [if_neg hn]
    have hdata : ("0x" ++ natHexDigits n.toNat).data =
        '0' :: 'x' :: (natHexDigits n.toNat).data := by
      rcases hds : natHexDigits n.toNat with ⟨l⟩
      rfl
    unfold pyIntHex
    rw [hdata]
    show (match parseHexNat ('0' :: 'x' :: (natHexDigits n.toNat).data) with
          | Except.ok v => Except.ok ((v : Int))
          | Except.error e => Except.error e) = Except.ok n
    rw [parseHexNat_marked]
    show Except.ok ((n.toNat : Int)) = Except.ok n
    congr 1
    omega

/-!
Claim C10: the `dest` field added by the renderer.
-/

/-- C10: whenever the field map of a decoded instruction — of any class —
has an `imm` entry and no `dest` entry, the renderer appends a `dest`
entry: for a non-negative integer immediate `n` the formatted address of
`n`; for a negative integer immediate the formatted address of
`0xffffffffffffffff + n` when the architecture is riscv:rv64 and of
`0xffffffff + n` otherwise; for a hex string immediate the formatted
address of its parsed value; and the rest of `expand_format_string` runs
its replacement loop on the extended map. -/
theorem c10_dest_insertion :
    (∀ (info : DisasmInfo) (fields : FieldMap) (n : Int),
      fields.lookup "imm" = some (.int n) → hasKey fields "dest" = false →
      0 ≤ n →
      expandDest info fields =
        .ok (fields ++ [("dest", .str (format_address n))])) ∧
    (∀ (info : DisasmInfo) (fields : FieldMap) (n : Int),
      fields.lookup "imm" = some (.int n) → hasKey fields "dest" = false →
      n < 0 → info.archName = "riscv:rv64" →
      expandDest info fields =
        .ok (fields ++
          [("dest", .str (format_address (0xffffffffffffffff + n)))])) ∧
    (∀ (info : DisasmInfo) (fields : FieldMap) (n : Int),
      fields.lookup "imm" = some (.int n) → hasKey fields "dest" = false →
      n < 0 → info.archName ≠ "riscv:rv64" →
      expandDest info fields =
        .ok (fields ++ [("dest", .str (format_address (0xffffffff + n)))])) ∧
    (∀ (info : DisasmInfo) (fields : FieldMap) (s : String) (n : Int),
      fields.lookup "imm" = some (.str s) → hasKey fields "dest" = false →
      pyIntHex s = .ok n → 0 ≤ n →
      expandDest info fields =
        .ok (fields ++ [("dest", .str (format_address n))])) ∧
    (∀ (fmt : String) (info : DisasmInfo) (fields fs : FieldMap),
      expandDest info fields = .ok fs →
      expand_format_string fmt info fields = .ok (runReplacements fs fmt)) := by
  have hcond : ∀ (fields : FieldMap), fields.lookup "imm" ≠ none →
      hasKey fields "dest" = false →
      (hasKey fields "imm" ∧ ¬ hasKey fields "dest") := by
    intro fields h1 h2
    constructor
    · unfold hasKey
      rcases hl : fields.lookup "imm" with - | v
      · exact absurd hl h1
      · rfl
    · intro hc
      rw [h2] at hc
      exact Bool.noConfusion hc
  refine ⟨?_, ?_, ?_, ?_, ?_⟩
  · intro info fields n hl hd hn
    unfold expandDest
    rw [if_pos (hcond fields (by rw [hl]; exact fun h => Option.noConfusion h) hd), hl]
    show Except.ok (fields ++ [("dest", .str (format_address
      (if (n : Int) < 0 then _ else n)))]) = _
    rw [if_neg (by omega)]
  · intro info fields n hl hd hn harch
    unfold expandDest
    rw [if_pos (hcond fields (by rw [hl]; exact fun h => Option.noConfusion h) hd), hl]
    show Except.ok (fields ++ [("dest", .str (format_address
      (if (n : Int) < 0 then
        (if info.archName == "riscv:rv64" then 0xffffffffffffffff + n
         else 0xffffffff + n) else n)))]) = _
    rw [if_pos hn, if_pos (by rw [harch]; rfl)]
  · intro info fields n hl hd hn harch
    unfold expandDest
    rw [if_pos (hcond fields (by rw [hl]; exact fun h => Option.noConfusion h) hd), hl]
    show Except.ok (fields ++ [("dest", .str (format_address
      (if (n : Int) < 0 then
        (if info.archName == "riscv:rv64" then 0xffffffffffffffff + n
         else 0xffffffff + n) else n)))]) = _
    rw [if_pos hn, if_neg (by simp [harch])]
  · intro info fields s n hl hd hp hn
    unfold expandDest
    rw [if_pos (hcond fields (by rw [hl]; exact fun h => Option.noConfusion h) hd), hl]
    show (match pyIntHex s with
          | Except.error er => Except.error er
          | Except.ok a => Except.ok (fields ++ [("dest", PyVal.str (format_address
              (if a < 0 then
                (if info.archName == "riscv:rv64" then 0xffffffffffffffff + a
                 else 0xffffffff + a) else a)))])) = _
    rw [hp]
    show Except.ok (fields ++ [("dest", .str (format_address
      (if n < 0 then _ else n)))]) = _
    rw [if_neg (by omega)]
  · intro fmt info fields fs h
    unfold expand_format_string
    rw [h]

/-- Witness for C10 at a one-entry field map with a non-negative
integer immediate. -/
theorem c10_dest_insertion_witness :
    expandDest ⟨0, "riscv:rv32"⟩ [("imm", .int 16)] =
      .ok ([("imm", .int 16)] ++ [("dest", .str (format_address 16))]) :=
  c10_dest_insertion.1 ⟨0, "riscv:rv32"⟩ [("imm", .int 16)] 16 (by decide)
    (by decide) (by decide)

/-!
Claim C5: B/J target addresses.
-/

/-- Helper: `dest` insertion for a field map whose `imm` entry is a hex
string parsing to a non-negative address. -/
theorem expandDest_str_pos (info : DisasmInfo) (fields : FieldMap)
    (s : String) (n : Int) (hl : fields.lookup "imm" = some (.str s))
    (hd : hasKey fields "dest" = false) (hp : pyIntHex s = .ok n)
    (hn : 0 ≤ n) :
    expandDest info fields =
      .ok (fields ++ [("dest", .str (format_address n))]) := by
  unfold expandDest
  rw [if_pos ?hc, hl]
  case hc =>
    constructor
    · unfold hasKey
      rw [hl]
      rfl
    · intro hc
      rw [hd] at hc
      exact Bool.noConfusion hc
  show (match pyIntHex s with
        | Except.error er => Except.error er
        | Except.ok a => Except.ok (fields ++ [("dest", PyVal.str (format_address
            (if a < 0 then
              (if info.archName == "riscv:rv64" then 0xffffffffffffffff + a
               else 0xffffffff + a) else a)))])) = _
  rw [hp]
  show Except.ok (fields ++ [("dest", PyVal.str (format_address
    (if n < 0 then _ else n)))]) = _
  rw [if_neg (by omega)]

/-- Counterexample to C5 as stated: on the B word 0x863 (offset +16) at
address 0x1000, the decoded `imm` entry is the hex address string
`0x1010` — address plus signed immediate — not the raw signed
immediate 16. -/
theorem c5_counterexample :
    (B_fields ⟨0x1000, "riscv:rv32"⟩ (encB 0x63 0 0 0 16)).lookup "imm" =
      some (.str (pyHex (0x1000 + signext 12 (B_uimm (encB 0x63 0 0 0 16))))) ∧
    signext 12 (B_uimm (encB 0x63 0 0 0 16)) = 16 ∧
    pyHex (0x1000 + signext 12 (B_uimm (encB 0x63 0 0 0 16))) = "0x1010" ∧
    PyVal.str "0x1010" ≠ PyVal.int 16 := by
  exact ⟨rfl, by decide, by decide, by decide⟩

/-- C5 amended: for B and J instructions the renderer's `dest`
placeholder does hold the formatted target address — the instruction's
address plus the signed immediate (when that target is non-negative;
negative targets wrap as described by C10) — but the `imm` entry is not
the raw signed immediate: it is already the hex string of address plus
signed immediate, and `uimm` likewise holds the hex string of address
plus raw immediate. -/
theorem c5_amended :
    (∀ (info : DisasmInfo) (w : Nat),
      (B_fields info w).lookup "imm" =
        some (.str (pyHex (info.address + signext 12 (B_uimm w)))) ∧
      (B_fields info w).lookup "uimm" =
        some (.str (pyHex (info.address + (B_uimm w : Int)))) ∧
      (0 ≤ info.address + signext 12 (B_uimm w) →
        expandDest info (B_fields info w) =
          .ok (B_fields info w ++ [("dest", .str (format_address
            (info.address + signext 12 (B_uimm w))))]))) ∧
    (∀ (info : DisasmInfo) (w : Nat),
      (J_fields info w).lookup "imm" =
        some (.str (pyHex (info.address + signext 20 (J_uimm w)))) ∧
      (J_fields info w).lookup "uimm" =
        some (.str (pyHex (info.address + (J_uimm w : Int)))) ∧
      (0 ≤ info.address + signext 20 (J_uimm w) →
        expandDest info (J_fields info w) =
          .ok (J_fields info w ++ [("dest", .str (format_address
            (info.address + signext 20 (J_uimm w))))]))) := by
  constructor
  · intro info w
    refine ⟨rfl, rfl, ?_⟩
    intro h
    exact expandDest_str_pos info (B_fields info w) _ _ rfl rfl
      (pyIntHex_pyHex _) h
  · intro info w
    refine ⟨rfl, rfl, ?_⟩
    intro h
    exact expandDest_str_pos info (J_fields info w) _ _ rfl rfl
      (pyIntHex_pyHex _) h

/-- Witness for C5 amended at the counterexample's B word and address
0x1000. -/
theorem c5_amended_witness :
    expandDest ⟨0x1000, "riscv:rv32"⟩
        (B_fields ⟨0x1000, "riscv:rv32"⟩ (encB 0x63 0 0 0 16)) =
      .ok (B_fields ⟨0x1000, "riscv:rv32"⟩ (encB 0x63 0 0 0 16) ++
        [("dest", .str (format_address (0x1000 +
          signext 12 (B_uimm (encB 0x63 0 0 0 16)))))]) :=
  (c5_amended.1 ⟨0x1000, "riscv:rv32"⟩ (encB 0x63 0 0 0 16)).2.2 (by decide)

/-!
Round-trip lemmas for claim C2, one per encoding class: building a word
by placing in-range field values at the class's bit positions and then
running the class's field decoder recovers the fields — registers by
index through the register-name tables, immediates by signed value.
-/

/-- Round trip for class R. -/
theorem c2round_R (op f3 f7 rd rs1 rs2 : Nat) (hop : op < 128)
    (hf3 : f3 < 8) (hf7 : f7 < 128) (hrd : rd < 32) (hrs1 : rs1 < 32)
    (hrs2 : rs2 < 32) :
    R_fields (encR op f3 f7 rd rs1 rs2) =
      [("rd", .str (xReg rd)), ("rs1", .str (xReg rs1)),
       ("rs2", .str (xReg rs2))] := by
  have e1 : sliceBits (encR op f3 f7 rd rs1 rs2) 11 7 = rd := by
    rw [sliceBits_arith]; unfold encR; omega
  have e2 : sliceBits (encR op f3 f7 rd rs1 rs2) 19 15 = rs1 := by
    rw [sliceBits_arith]; unfold encR; omega
  have e3 : sliceBits (encR op f3 f7 rd rs1 rs2) 24 20 = rs2 := by
    rw [sliceBits_arith]; unfold encR; omega
  unfold R_fields
  rw [e1, e2, e3]

/-- Round trip for class I. -/
theorem c2round_I (op f3 rd rs1 : Nat) (s : Int) (hop : op < 128)
    (hf3 : f3 < 8) (hrd : rd < 32) (hrs1 : rs1 < 32)
    (hs1 : -2048 ≤ s) (hs2 : s < 2048) :
    I_fields (encI op f3 rd rs1 (s % 4096).toNat) =
      [("rd", .str (xReg rd)), ("rs1", .str (xReg rs1)),
       ("uimm", .int ((s % 4096).toNat : Int)), ("imm", .int s)] := by
  have hu : (s % 4096).toNat < 4096 := by omega
  have e1 : sliceBits (encI op f3 rd rs1 (s % 4096).toNat) 11 7 = rd := by
    rw [sliceBits_arith]; unfold encI; omega
  have e2 : sliceBits (encI op f3 rd rs1 (s % 4096).toNat) 19 15 = rs1 := by
    rw [sliceBits_arith]; unfold encI; omega
  have e3 : I_uimm (encI op f3 rd rs1 (s % 4096).toNat) = (s % 4096).toNat := by
    unfold I_uimm; rw [sliceBits_arith]; unfold encI; omega
  have e4 : signext 11 ((s % 4096).toNat) = s := by
    rw [signext_arith]; omega
  unfold I_fields
  rw [e1, e2, e3, e4]

/-- Round trip for class S, whose immediate is split across two slices. -/
theorem c2round_S (op f3 rs1 rs2 : Nat) (s : Int) (hop : op < 128)
    (hf3 : f3 < 8) (hrs1 : rs1 < 32) (hrs2 : rs2 < 32)
    (hs1 : -2048 ≤ s) (hs2 : s < 2048) :
    S_fields (encS op f3 rs1 rs2 (s % 4096).toNat) =
      [("rs1", .str (xReg rs1)), ("rs2", .str (xReg rs2)),
       ("uimm", .int ((s % 4096).toNat : Int)), ("imm", .int s)] := by
  have hu : (s % 4096).toNat < 4096 := by omega
  have e1 : sliceBits (encS op f3 rs1 rs2 (s % 4096).toNat) 19 15 = rs1 := by
    rw [sliceBits_arith]; unfold encS; omega
  have e2 : sliceBits (encS op f3 rs1 rs2 (s % 4096).toNat) 24 20 = rs2 := by
    rw [sliceBits_arith]; unfold encS; omega
  have e3 : S_uimm (encS op f3 rs1 rs2 (s % 4096).toNat) = (s % 4096).toNat := by
    unfold S_uimm
    have s1 : sliceBits (encS op f3 rs1 rs2 (s % 4096).toNat) 11 7 =
        (s % 4096).toNat % 32 := by
      rw [sliceBits_arith]; unfold encS; omega
    have s2 : sliceBits (encS op f3 rs1 rs2 (s % 4096).toNat) 31 25 =
        (s % 4096).toNat / 32 := by
      rw [sliceBits_arith]; unfold encS; omega
    rw [s1, s2, lor_mul_pow _ _ 5 (by omega)]
    omega
  have e4 : signext 11 ((s % 4096).toNat) = s := by
    rw [signext_arith]; omega
  unfold S_fields
  rw [e1, e2, e3, e4]

/-- Round trip for class U: the raw 20-bit field, no sign handling. -/
theorem c2round_U (op rd u : Nat) (hop : op < 128) (hrd : rd < 32)
    (hu : u < 1048576) :
    U_fields (encU op rd u) =
      [("rd", .str (xReg rd)), ("uimm", .int (u : Int)),
       ("imm", .int (u : Int))] := by
  have e1 : sliceBits (encU op rd u) 11 7 = rd := by
    rw [sliceBits_arith]; unfold encU; omega
  have e2 : U_uimm (encU op rd u) >>> 12 = u := by
    unfold U_uimm
    rw [Nat.shiftLeft_eq, Nat.shiftRight_eq_div_pow,
        Nat.mul_div_cancel _ (by norm_num : (0 : Nat) < 2 ^ 12)]
    rw [sliceBits_arith]; unfold encU; omega
  unfold U_fields
  rw [e1, e2]

/-- Round trip for class CR: two x-register indices, no immediate. -/
theorem c2round_CR (op f4 rds1 rs2 : Nat) (hop : op < 4) (hf4 : f4 < 16)
    (hrds1 : rds1 < 32) (hrs2 : rs2 < 32) :
    CR_fields (encCR op f4 rds1 rs2) =
      [("rs2", .str (xReg rs2)), ("rs1", .str (xReg rds1)),
       ("rd", .str (xReg rds1))] := by
  have e1 : sliceBits (encCR op f4 rds1 rs2) 6 2 = rs2 := by
    rw [sliceBits_arith]; unfold encCR; omega
  have e2 : sliceBits (encCR op f4 rds1 rs2) 11 7 = rds1 := by
    rw [sliceBits_arith]; unfold encCR; omega
  unfold CR_fields
  rw [e1, e2]

/-- Round trip for class CI. -/
theorem c2round_CI (op f3 rds1 : Nat) (s : Int) (hop : op < 4)
    (hf3 : f3 < 8) (hrds1 : rds1 < 32) (hs1 : -32 ≤ s) (hs2 : s < 32) :
    CI_fields (encCI op f3 rds1 (s % 64).toNat) =
      [("rd", .str (xReg rds1)), ("rs1", .str (xReg rds1)),
       ("uimm", .int ((s % 64).toNat : Int)), ("imm", .int s)] := by
  have hu : (s % 64).toNat < 64 := by omega
  have e1 : sliceBits (encCI op f3 rds1 (s % 64).toNat) 11 7 = rds1 := by
    rw [sliceBits_arith]; unfold encCI; omega
  have e3 : CI_uimm (encCI op f3 rds1 (s % 64).toNat) = (s % 64).toNat := by
    unfold CI_uimm
    have s1 : sliceBits (encCI op f3 rds1 (s % 64).toNat) 6 2 =
        (s % 64).toNat % 32 := by
      rw [sliceBits_arith]; unfold encCI; omega
    have s2 : sliceBits (encCI op f3 rds1 (s % 64).toNat) 12 12 =
        (s % 64).toNat / 32 % 2 := by
      rw [sliceBits_arith]; unfold encCI; omega
    rw [s1, s2, lor_mul_pow _ _ 5 (by omega)]
    omega
  have e4 : signext 5 ((s % 64).toNat) = s := by
    rw [signext_arith]; omega
  unfold CI_fields
  rw [e1, e3, e4]

/-- Round trip for class CS, using the code's slice [12:10] for the
high immediate part. -/
theorem c2round_CS (op f3 rd rs2 : Nat) (s : Int) (hop : op < 4)
    (hf3 : f3 < 8) (hrd : rd < 8) (hrs2 : rs2 < 8) (hs1 : -16 ≤ s)
    (hs2 : s < 16) :
    CS_fields (encCS op f3 rd rs2 (s % 32).toNat) =
      [("rd", .str (cxReg rd)), ("rs1", .str (cxReg rd)),
       ("rs2", .str (cxReg rs2)),
       ("uimm", .int ((s % 32).toNat : Int)), ("imm", .int s)] := by
  have hu : (s % 32).toNat < 32 := by omega
  have e1 : sliceBits (encCS op f3 rd rs2 (s % 32).toNat) 4 2 = rd := by
    rw [sliceBits_arith]; unfold encCS; omega
  have e2 : sliceBits (encCS op f3 rd rs2 (s % 32).toNat) 9 7 = rs2 := by
    rw [sliceBits_arith]; unfold encCS; omega
  have e3 : CS_uimm (encCS op f3 rd rs2 (s % 32).toNat) = (s % 32).toNat := by
    unfold CS_uimm
    have s1 : sliceBits (encCS op f3 rd rs2 (s % 32).toNat) 6 5 =
        (s % 32).toNat % 4 := by
      rw [sliceBits_arith]; unfold encCS; omega
    have s2 : sliceBits (encCS op f3 rd rs2 (s % 32).toNat) 12 10 =
        (s % 32).toNat / 4 % 8 := by
      rw [sliceBits_arith]; unfold encCS; omega
    rw [s1, s2, Nat.shiftLeft_zero, lor_mul_pow _ _ 2 (by omega)]
    omega
  have e4 : signext 4 ((s % 32).toNat) = s := by
    rw [signext_arith]; omega
  unfold CS_fields
  rw [e1, e2, e3, e4]

/-- Round trip for class CSS: the register slice [11:7] lies inside the
immediate slices, so the recovered immediate is determined by the
register index `r` and the one free word bit 12 (`b`). -/
theorem c2round_CSS (op f3 r b : Nat) (hop : op < 4) (hf3 : f3 < 8)
    (hr : r < 32) (hb : b < 2) :
    CSS_fields (encCSS op f3 r b) =
      [("rd", .str (xReg r)), ("rs2", .str (xReg r)), ("rs1", .str (xReg r)),
       ("uimm", .int ((32 * b + 4 * (r / 4) + 64 * (r % 4) : Nat) : Int)),
       ("imm", .int (signext 7 (32 * b + 4 * (r / 4) + 64 * (r % 4))))] := by
  have e1 : sliceBits (encCSS op f3 r b) 11 7 = r := by
    rw [sliceBits_arith]; unfold encCSS; omega
  have e3 : CSS_uimm (encCSS op f3 r b) =
      32 * b + 4 * (r / 4) + 64 * (r % 4) := by
    unfold CSS_uimm
    have s1 : sliceBits (encCSS op f3 r b) 12 9 = 8 * b + r / 4 := by
      rw [sliceBits_arith]; unfold encCSS; omega
    have s2 : sliceBits (encCSS op f3 r b) 8 7 = r % 4 := by
      rw [sliceBits_arith]; unfold encCSS; omega
    rw [s1, s2, Nat.shiftLeft_eq (8 * b + r / 4) 2,
        lor_mul_pow _ _ 6 (by omega)]
    omega
  unfold CSS_fields
  rw [e1, e3]

/-- Extracting a field of width `Q` at position `P` (both powers of two
in use) from a word decomposed as low part, field and high part. -/
theorem extract_slice (w P Q low mid high : Nat) (hP : 0 < P)
    (hw : w = low + P * mid + P * Q * high) (hlow : low < P)
    (hmid : mid < Q) : w / P % Q = mid := by
  subst hw
  have h1 : low + P * mid + P * Q * high = low + P * (mid + Q * high) := by
    ring
  rw [h1, Nat.add_mul_div_left _ _ hP, Nat.div_eq_of_lt hlow, Nat.zero_add,
      Nat.add_mul_mod_self_left, Nat.mod_eq_of_lt hmid]

/-- Round trip for class B: registers by name, and both immediate
entries as hex strings relative to the instruction address. -/
theorem c2round_B (op f3 rs1 rs2 : Nat) (s : Int) (info : DisasmInfo)
    (hop : op < 128) (hf3 : f3 < 8) (hrs1 : rs1 < 32) (hrs2 : rs2 < 32)
    (hs1 : -4096 ≤ s) (hs2 : s < 4096) (hse : s % 2 = 0) :
    B_fields info (encB op f3 rs1 rs2 (s % 8192).toNat) =
      [("rs1", .str (xReg rs1)), ("rs2", .str (xReg rs2)),
       ("uimm", .str (pyHex (info.address + ((s % 8192).toNat : Int)))),
       ("imm", .str (pyHex (info.address + s)))] := by
  obtain ⟨u, hudef⟩ : ∃ u, (s % 8192).toNat = u := ⟨_, rfl⟩
  have hu : u < 8192 := by omega
  have hu2 : u % 2 = 0 := by omega
  rw [hudef]
  have e1 : sliceBits (encB op f3 rs1 rs2 u) 19 15 = rs1 := by
    rw [sliceBits_arith]
    norm_num
    exact extract_slice _ 32768 32
      (op + 128 * (u / 2048 % 2) + 256 * (u / 2 % 16) + 4096 * f3) rs1
      (rs2 + 32 * (u / 32 % 64) + 2048 * (u / 4096 % 2))
      (by norm_num) (by unfold encB; ring) (by omega) hrs1
  have e2 : sliceBits (encB op f3 rs1 rs2 u) 24 20 = rs2 := by
    rw [sliceBits_arith]
    norm_num
    exact extract_slice _ 1048576 32
      (op + 128 * (u / 2048 % 2) + 256 * (u / 2 % 16) + 4096 * f3 +
        32768 * rs1) rs2
      (u / 32 % 64 + 64 * (u / 4096 % 2))
      (by norm_num) (by unfold encB; ring) (by omega) hrs2
  have e3 : B_uimm (encB op f3 rs1 rs2 u) = u := by
    unfold B_uimm
    have s1 : sliceBits (encB op f3 rs1 rs2 u) 11 8 = u / 2 % 16 := by
      rw [sliceBits_arith]
      norm_num
      exact extract_slice _ 256 16 (op + 128 * (u / 2048 % 2)) (u / 2 % 16)
        (f3 + 8 * rs1 + 256 * rs2 + 8192 * (u / 32 % 64) +
          524288 * (u / 4096 % 2))
        (by norm_num) (by unfold encB; ring) (by omega) (by omega)
    have s2 : sliceBits (encB op f3 rs1 rs2 u) 30 25 = u / 32 % 64 := by
      rw [sliceBits_arith]
      norm_num
      exact extract_slice _ 33554432 64
        (op + 128 * (u / 2048 % 2) + 256 * (u / 2 % 16) + 4096 * f3 +
          32768 * rs1 + 1048576 * rs2) (u / 32 % 64) (u / 4096 % 2)
        (by norm_num) (by unfold encB; ring) (by omega) (by omega)
    have s3 : sliceBits (encB op f3 rs1 rs2 u) 7 7 = u / 2048 % 2 := by
      rw [sliceBits_arith]
      norm_num
      exact extract_slice _ 128 2 op (u / 2048 % 2)
        (u / 2 % 16 + 16 * f3 + 128 * rs1 + 4096 * rs2 +
          131072 * (u / 32 % 64) + 8388608 * (u / 4096 % 2))
        (by norm_num) (by unfold encB; ring) (by omega) (by omega)
    have s4 : sliceBits (encB op f3 rs1 rs2 u) 31 31 = u / 4096 % 2 := by
      rw [sliceBits_arith]
      norm_num
      exact extract_slice _ 2147483648 2
        (op + 128 * (u / 2048 % 2) + 256 * (u / 2 % 16) + 4096 * f3 +
          32768 * rs1 + 1048576 * rs2 + 33554432 * (u / 32 % 64))
        (u / 4096 % 2) 0
        (by norm_num) (by unfold encB; ring) (by omega) (by omega)
    rw [s1, s2, s3, s4, Nat.shiftLeft_eq (u / 2 % 16) 1,
        lor_mul_pow _ _ 5 (by omega), lor_mul_pow _ _ 11 (by omega),
        lor_mul_pow _ _ 12 (by omega)]
    omega
  have e4 : signext 12 u = s := by
    rw [signext_arith]; omega
  unfold B_fields
  rw [e1, e2, e3, e4]

/-- Round trip for class J: register by name, and both immediate entries
as hex strings relative to the instruction address. -/
theorem c2round_J (op rd : Nat) (s : Int) (info : DisasmInfo)
    (hop : op < 128) (hrd : rd < 32) (hs1 : -1048576 ≤ s)
    (hs2 : s < 1048576) (hse : s % 2 = 0) :
    J_fields info (encJ op rd (s % 2097152).toNat) =
      [("rd", .str (xReg rd)),
       ("uimm", .str (pyHex (info.address + ((s % 2097152).toNat : Int)))),
       ("imm", .str (pyHex (info.address + s)))] := by
  obtain ⟨u, hudef⟩ : ∃ u, (s % 2097152).toNat = u := ⟨_, rfl⟩
  have hu : u < 2097152 := by omega
  have hu2 : u % 2 = 0 := by omega
  rw [hudef]
  have e1 : sliceBits (encJ op rd u) 11 7 = rd := by
    rw [sliceBits_arith]
    norm_num
    exact extract_slice _ 128 32 op rd
      (u / 4096 % 256 + 256 * (u / 2048 % 2) + 512 * (u / 2 % 1024) +
        524288 * (u / 1048576 % 2))
      (by norm_num) (by unfold encJ; ring) (by omega) hrd
  have e3 : J_uimm (encJ op rd u) = u := by
    unfold J_uimm
    have s1 : sliceBits (encJ op rd u) 19 12 = u / 4096 % 256 := by
      rw [sliceBits_arith]
      norm_num
      exact extract_slice _ 4096 256 (op + 128 * rd) (u / 4096 % 256)
        (u / 2048 % 2 + 2 * (u / 2 % 1024) + 2048 * (u / 1048576 % 2))
        (by norm_num) (by unfold encJ; ring) (by omega) (by omega)
    have s2 : sliceBits (encJ op rd u) 20 20 = u / 2048 % 2 := by
      rw [sliceBits_arith]
      norm_num
      exact extract_slice _ 1048576 2
        (op + 128 * rd + 4096 * (u / 4096 % 256)) (u / 2048 % 2)
        (u / 2 % 1024 + 1024 * (u / 1048576 % 2))
        (by norm_num) (by unfold encJ; ring) (by omega) (by omega)
    have s3 : sliceBits (encJ op rd u) 30 21 = u / 2 % 1024 := by
      rw [sliceBits_arith]
      norm_num
      exact extract_slice _ 2097152 1024
        (op + 128 * rd + 4096 * (u / 4096 % 256) + 1048576 * (u / 2048 % 2))
        (u / 2 % 1024) (u / 1048576 % 2)
        (by norm_num) (by unfold encJ; ring) (by omega) (by omega)
    have s4 : sliceBits (encJ op rd u) 31 31 = u / 1048576 % 2 := by
      rw [sliceBits_arith]
      norm_num
      exact extract_slice _ 2147483648 2
        (op + 128 * rd + 4096 * (u / 4096 % 256) + 1048576 * (u / 2048 % 2) +
          2097152 * (u / 2 % 1024)) (u / 1048576 % 2) 0
        (by norm_num) (by unfold encJ; ring) (by omega) (by omega)
    rw [s1, s2, s3, s4]
    rw [Nat.lor_comm ((u / 4096 % 256) <<< 12) ((u / 2048 % 2) <<< 11),
        Nat.shiftLeft_eq (u / 2048 % 2) 11, lor_mul_pow _ _ 12 (by omega)]
    rw [Nat.lor_comm (u / 2048 % 2 * 2 ^ 11 + u / 4096 % 256 * 2 ^ 12)
          ((u / 2 % 1024) <<< 1),
        Nat.shiftLeft_eq (u / 2 % 1024) 1]
    rw [show u / 2048 % 2 * 2 ^ 11 + u / 4096 % 256 * 2 ^ 12 =
          (u / 2048 % 2 + 2 * (u / 4096 % 256)) <<< 11 by
        rw [Nat.shiftLeft_eq]; ring]
    rw [lor_mul_pow _ _ 11 (by omega)]
    rw [lor_mul_pow _ _ 20 (by omega)]
    omega
  have e4 : signext 20 u = s := by
    rw [signext_arith]; omega
  unfold J_fields
  rw [e1, e3, e4]

/-- Round trip for class CIW. -/
theorem c2round_CIW (op f3 rd : Nat) (s : Int) (hop : op < 4) (hf3 : f3 < 8)
    (hrd : rd < 8) (hs1 : -512 ≤ s) (hs2 : s < 512) (hse : s % 4 = 0) :
    CIW_fields (encCIW op f3 rd (s % 1024).toNat) =
      [("rd", .str (cxReg rd)),
       ("uimm", .int ((s % 1024).toNat : Int)), ("imm", .int s)] := by
  obtain ⟨u, hudef⟩ : ∃ u, (s % 1024).toNat = u := ⟨_, rfl⟩
  have hu : u < 1024 := by omega
  have hu4 : u % 4 = 0 := by omega
  rw [hudef]
  have e1 : sliceBits (encCIW op f3 rd u) 4 2 = rd := by
    rw [sliceBits_arith]
    norm_num
    exact extract_slice _ 4 8 op rd
      (u / 8 % 2 + 2 * (u / 4 % 2) + 4 * (u / 64 % 16) + 64 * (u / 16 % 4) +
        256 * f3)
      (by norm_num) (by unfold encCIW; ring) (by omega) hrd
  have e3 : CIW_uimm (encCIW op f3 rd u) = u := by
    unfold CIW_uimm
    have s1 : sliceBits (encCIW op f3 rd u) 5 5 = u / 8 % 2 := by
      rw [sliceBits_arith]
      norm_num
      exact extract_slice _ 32 2 (op + 4 * rd) (u / 8 % 2)
        (u / 4 % 2 + 2 * (u / 64 % 16) + 32 * (u / 16 % 4) + 128 * f3)
        (by norm_num) (by unfold encCIW; ring) (by omega) (by omega)
    have s2 : sliceBits (encCIW op f3 rd u) 6 6 = u / 4 % 2 := by
      rw [sliceBits_arith]
      norm_num
      exact extract_slice _ 64 2 (op + 4 * rd + 32 * (u / 8 % 2)) (u / 4 % 2)
        (u / 64 % 16 + 16 * (u / 16 % 4) + 64 * f3)
        (by norm_num) (by unfold encCIW; ring) (by omega) (by omega)
    have s3 : sliceBits (encCIW op f3 rd u) 12 11 = u / 16 % 4 := by
      rw [sliceBits_arith]
      norm_num
      exact extract_slice _ 2048 4
        (op + 4 * rd + 32 * (u / 8 % 2) + 64 * (u / 4 % 2) +
          128 * (u / 64 % 16)) (u / 16 % 4) f3
        (by norm_num) (by unfold encCIW; ring) (by omega) (by omega)
    have s4 : sliceBits (encCIW op f3 rd u) 10 7 = u / 64 % 16 := by
      rw [sliceBits_arith]
      norm_num
      exact extract_slice _ 128 16
        (op + 4 * rd + 32 * (u / 8 % 2) + 64 * (u / 4 % 2)) (u / 64 % 16)
        (u / 16 % 4 + 4 * f3)
        (by norm_num) (by unfold encCIW; ring) (by omega) (by omega)
    rw [s1, s2, s3, s4]
    rw [Nat.lor_comm ((u / 8 % 2) <<< 3) ((u / 4 % 2) <<< 2),
        Nat.shiftLeft_eq (u / 4 % 2) 2, lor_mul_pow _ _ 3 (by omega),
        lor_mul_pow _ _ 4 (by omega), lor_mul_pow _ _ 6 (by omega)]
    omega
  have e4 : signext 9 u = s := by
    rw [signext_arith]; omega
  unfold CIW_fields
  rw [e1, e3, e4]

/-- Round trip for class CL. -/
theorem c2round_CL (op f3 rd rs1 : Nat) (s : Int) (hop : op < 4)
    (hf3 : f3 < 8) (hrd : rd < 8) (hrs1 : rs1 < 8) (hs1 : -64 ≤ s)
    (hs2 : s < 64) (hse : s % 4 = 0) :
    CL_fields (encCL op f3 rd rs1 (s % 128).toNat) =
      [("rd", .str (cxReg rd)), ("rs1", .str (cxReg rs1)),
       ("uimm", .int ((s % 128).toNat : Int)), ("imm", .int s)] := by
  obtain ⟨u, hudef⟩ : ∃ u, (s % 128).toNat = u := ⟨_, rfl⟩
  have hu : u < 128 := by omega
  have hu4 : u % 4 = 0 := by omega
  rw [hudef]
  have e1 : sliceBits (encCL op f3 rd rs1 u) 4 2 = rd := by
    rw [sliceBits_arith]
    norm_num
    exact extract_slice _ 4 8 op rd
      (u / 4 % 2 + 2 * (u / 64 % 2) + 4 * rs1 + 32 * (u / 8 % 8) + 256 * f3)
      (by norm_num) (by unfold encCL; ring) (by omega) hrd
  have e2 : sliceBits (encCL op f3 rd rs1 u) 9 7 = rs1 := by
    rw [sliceBits_arith]
    norm_num
    exact extract_slice _ 128 8
      (op + 4 * rd + 32 * (u / 4 % 2) + 64 * (u / 64 % 2)) rs1
      (u / 8 % 8 + 8 * f3)
      (by norm_num) (by unfold encCL; ring) (by omega) hrs1
  have e3 : CL_uimm (encCL op f3 rd rs1 u) = u := by
    unfold CL_uimm
    have s1 : sliceBits (encCL op f3 rd rs1 u) 5 5 = u / 4 % 2 := by
      rw [sliceBits_arith]
      norm_num
      exact extract_slice _ 32 2 (op + 4 * rd) (u / 4 % 2)
        (u / 64 % 2 + 2 * rs1 + 16 * (u / 8 % 8) + 128 * f3)
        (by norm_num) (by unfold encCL; ring) (by omega) (by omega)
    have s2 : sliceBits (encCL op f3 rd rs1 u) 6 6 = u / 64 % 2 := by
      rw [sliceBits_arith]
      norm_num
      exact extract_slice _ 64 2 (op + 4 * rd + 32 * (u / 4 % 2))
        (u / 64 % 2) (rs1 + 8 * (u / 8 % 8) + 64 * f3)
        (by norm_num) (by unfold encCL; ring) (by omega) (by omega)
    have s3 : sliceBits (encCL op f3 rd rs1 u) 12 10 = u / 8 % 8 := by
      rw [sliceBits_arith]
      norm_num
      exact extract_slice _ 1024 8
        (op + 4 * rd + 32 * (u / 4 % 2) + 64 * (u / 64 % 2) + 128 * rs1)
        (u / 8 % 8) f3
        (by norm_num) (by unfold encCL; ring) (by omega) (by omega)
    rw [s1, s2, s3]
    rw [Nat.lor_assoc, Nat.lor_comm ((u / 64 % 2) <<< 6) ((u / 8 % 8) <<< 3),
        ← Nat.lor_assoc]
    rw [Nat.shiftLeft_eq (u / 4 % 2) 2, lor_mul_pow _ _ 3 (by omega),
        lor_mul_pow _ _ 6 (by omega)]
    omega
  have e4 : signext 6 u = s := by
    rw [signext_arith]; omega
  unfold CL_fields
  rw [e1, e2, e3, e4]

/-- Round trip for class CB. -/
theorem c2round_CB (op f3 rs1 : Nat) (s : Int) (hop : op < 4) (hf3 : f3 < 8)
    (hrs1 : rs1 < 8) (hs1 : -256 ≤ s) (hs2 : s < 256) (hse : s % 2 = 0) :
    CB_fields (encCB op f3 rs1 (s % 512).toNat) =
      [("rs1", .str (cxReg rs1)),
       ("uimm", .int ((s % 512).toNat : Int)), ("imm", .int s)] := by
  obtain ⟨u, hudef⟩ : ∃ u, (s % 512).toNat = u := ⟨_, rfl⟩
  have hu : u < 512 := by omega
  have hu2 : u % 2 = 0 := by omega
  rw [hudef]
  have e1 : sliceBits (encCB op f3 rs1 u) 9 7 = rs1 := by
    rw [sliceBits_arith]
    norm_num
    exact extract_slice _ 128 8 (op + 4 * (u / 32 % 2) + 8 * (u / 2 % 16))
      rs1 (u / 64 % 8 + 8 * f3)
      (by norm_num) (by unfold encCB; ring) (by omega) hrs1
  have e3 : CB_uimm (encCB op f3 rs1 u) = u := by
    unfold CB_uimm
    have s1 : sliceBits (encCB op f3 rs1 u) 2 2 = u / 32 % 2 := by
      rw [sliceBits_arith]
      norm_num
      exact extract_slice _ 4 2 op (u / 32 % 2)
        (u / 2 % 16 + 16 * rs1 + 128 * (u / 64 % 8) + 1024 * f3)
        (by norm_num) (by unfold encCB; ring) (by omega) (by omega)
    have s2 : sliceBits (encCB op f3 rs1 u) 6 3 = u / 2 % 16 := by
      rw [sliceBits_arith]
      norm_num
      exact extract_slice _ 8 16 (op + 4 * (u / 32 % 2)) (u / 2 % 16)
        (rs1 + 8 * (u / 64 % 8) + 64 * f3)
        (by norm_num) (by unfold encCB; ring) (by omega) (by omega)
    have s3 : sliceBits (encCB op f3 rs1 u) 12 10 = u / 64 % 8 := by
      rw [sliceBits_arith]
      norm_num
      exact extract_slice _ 1024 8
        (op + 4 * (u / 32 % 2) + 8 * (u / 2 % 16) + 128 * rs1) (u / 64 % 8)
        f3
        (by norm_num) (by unfold encCB; ring) (by omega) (by omega)
    rw [s1, s2, s3]
    rw [Nat.lor_comm ((u / 32 % 2) <<< 5) ((u / 2 % 16) <<< 1),
        Nat.shiftLeft_eq (u / 2 % 16) 1, lor_mul_pow _ _ 5 (by omega),
        lor_mul_pow _ _ 6 (by omega)]
    omega
  have e4 : signext 8 u = s := by
    rw [signext_arith]; omega
  unfold CB_fields
  rw [e1, e3, e4]

/-- Round trip for class CJ (the table's 11-bit signed range, so the
encoded raw value never reaches the otherwise-expressible word bit 12). -/
theorem c2round_CJ (op f3 : Nat) (s : Int) (hop : op < 4) (hf3 : f3 < 8)
    (hs1 : -1024 ≤ s) (hs2 : s < 1024) (hse : s % 2 = 0) :
    CJ_fields (encCJ op f3 (s % 2048).toNat) =
      [("uimm", .int ((s % 2048).toNat : Int)), ("imm", .int s)] := by
  obtain ⟨u, hudef⟩ : ∃ u, (s % 2048).toNat = u := ⟨_, rfl⟩
  have hu : u < 2048 := by omega
  have hu2 : u % 2 = 0 := by omega
  rw [hudef]
  have e3 : CJ_uimm (encCJ op f3 u) = u := by
    unfold CJ_uimm
    have s1 : sliceBits (encCJ op f3 u) 2 2 = u / 32 % 2 := by
      rw [sliceBits_arith]
      norm_num
      exact extract_slice _ 4 2 op (u / 32 % 2)
        (u / 2 % 16 + 16 * (u / 64 % 64) + 1024 * f3)
        (by norm_num) (by unfold encCJ; ring) (by omega) (by omega)
    have s2 : sliceBits (encCJ op f3 u) 6 3 = u / 2 % 16 := by
      rw [sliceBits_arith]
      norm_num
      exact extract_slice _ 8 16 (op + 4 * (u / 32 % 2)) (u / 2 % 16)
        (u / 64 % 64 + 64 * f3)
        (by norm_num) (by unfold encCJ; ring) (by omega) (by omega)
    have s3 : sliceBits (encCJ op f3 u) 12 7 = u / 64 % 64 := by
      rw [sliceBits_arith]
      norm_num
      exact extract_slice _ 128 64 (op + 4 * (u / 32 % 2) + 8 * (u / 2 % 16))
        (u / 64 % 64) f3
        (by norm_num) (by unfold encCJ; ring) (by omega) (by omega)
    rw [s1, s2, s3]
    rw [Nat.lor_comm ((u / 32 % 2) <<< 5) ((u / 2 % 16) <<< 1),
        Nat.shiftLeft_eq (u / 2 % 16) 1, lor_mul_pow _ _ 5 (by omega),
        lor_mul_pow _ _ 6 (by omega)]
    omega
  have e4 : signext 10 u = s := by
    rw [signext_arith]; omega
  unfold CJ_fields
  rw [e3, e4]

/-- Counterexample to C2 as stated: for class CS the spec's section 4.2
table places the high immediate part at word bits [12:9], but the
decoder reads bits [12:10].  Building a word with the in-range immediate
4 at the table's positions (all registers 0, opcode 0, funct3 0: word
bit 9 set, value 512) and decoding yields immediate 0, not 4. -/
theorem c2_counterexample :
    specEncCS 0 0 0 0 4 = 512 ∧
    (CS_fields (specEncCS 0 0 0 0 4)).lookup "imm" = some (.int 0) ∧
    (CS_fields (specEncCS 0 0 0 0 4)).lookup "uimm" = some (.int 0) ∧
    ((0 : Int) ≠ 4) := by
  exact ⟨by decide, by decide, by decide, by decide⟩

/-- C2 amended: the round trip holds for every encoding class with the
word built at the code's bit positions — which match the section 4.2
table except that CS's high immediate part sits at word bits [12:10],
not [12:9].  Registers are recovered by index through the register-name
tables and immediates by signed value, with three qualifications read
off the code: for CSS the register slice [11:7] lies inside the
immediate slices, so the immediate is determined by the register index
and word bit 12 rather than freely chosen; for B and J the two immediate
entries are hex strings of (address + immediate), from which the signed
value is recovered relative to the address by parsing (final conjunct of
each: the string parses back to address + immediate); for CJ the signed
values range over the table's 11-bit sign-extension width. -/
theorem c2_amended :
    (∀ op f3 f7 rd rs1 rs2 : Nat, op < 128 → f3 < 8 → f7 < 128 →
      rd < 32 → rs1 < 32 → rs2 < 32 →
      R_fields (encR op f3 f7 rd rs1 rs2) =
        [("rd", .str (xReg rd)), ("rs1", .str (xReg rs1)),
         ("rs2", .str (xReg rs2))]) ∧
    (∀ (op f3 rd rs1 : Nat) (s : Int), op < 128 → f3 < 8 → rd < 32 →
      rs1 < 32 → -2048 ≤ s → s < 2048 →
      I_fields (encI op f3 rd rs1 (s % 4096).toNat) =
        [("rd", .str (xReg rd)), ("rs1", .str (xReg rs1)),
         ("uimm", .int ((s % 4096).toNat : Int)), ("imm", .int s)]) ∧
    (∀ (op f3 rs1 rs2 : Nat) (s : Int), op < 128 → f3 < 8 → rs1 < 32 →
      rs2 < 32 → -2048 ≤ s → s < 2048 →
      S_fields (encS op f3 rs1 rs2 (s % 4096).toNat) =
        [("rs1", .str (xReg rs1)), ("rs2", .str (xReg rs2)),
         ("uimm", .int ((s % 4096).toNat : Int)), ("imm", .int s)]) ∧
    (∀ (op f3 rs1 rs2 : Nat) (s : Int) (info : DisasmInfo), op < 128 →
      f3 < 8 → rs1 < 32 → rs2 < 32 → -4096 ≤ s → s < 4096 → s % 2 = 0 →
      B_fields info (encB op f3 rs1 rs2 (s % 8192).toNat) =
        [("rs1", .str (xReg rs1)), ("rs2", .str (xReg rs2)),
         ("uimm", .str (pyHex (info.address + ((s % 8192).toNat : Int)))),
         ("imm", .str (pyHex (info.address + s)))] ∧
      pyIntHex (pyHex (info.address + s)) = .ok (info.address + s)) ∧
    (∀ (op rd u : Nat), op < 128 → rd < 32 → u < 1048576 →
      U_fields (encU op rd u) =
        [("rd", .str (xReg rd)), ("uimm", .int (u : Int)),
         ("imm", .int (u : Int))]) ∧
    (∀ (op rd : Nat) (s : Int) (info : DisasmInfo), op < 128 → rd < 32 →
      -1048576 ≤ s → s < 1048576 → s % 2 = 0 →
      J_fields info (encJ op rd (s % 2097152).toNat) =
        [("rd", .str (xReg rd)),
         ("uimm", .str (pyHex (info.address + ((s % 2097152).toNat : Int)))),
         ("imm", .str (pyHex (info.address + s)))] ∧
      pyIntHex (pyHex (info.address + s)) = .ok (info.address + s)) ∧
    (∀ op f4 rds1 rs2 : Nat, op < 4 → f4 < 16 → rds1 < 32 → rs2 < 32 →
      CR_fields (encCR op f4 rds1 rs2) =
        [("rs2", .str (xReg rs2)), ("rs1", .str (xReg rds1)),
         ("rd", .str (xReg rds1))]) ∧
    (∀ (op f3 rds1 : Nat) (s : Int), op < 4 → f3 < 8 → rds1 < 32 →
      -32 ≤ s → s < 32 →
      CI_fields (encCI op f3 rds1 (s % 64).toNat) =
        [("rd", .str (xReg rds1)), ("rs1", .str (xReg rds1)),
         ("uimm", .int ((s % 64).toNat : Int)), ("imm", .int s)]) ∧
    (∀ op f3 r b : Nat, op < 4 → f3 < 8 → r < 32 → b < 2 →
      CSS_fields (encCSS op f3 r b) =
        [("rd", .str (xReg r)), ("rs2", .str (xReg r)),
         ("rs1", .str (xReg r)),
         ("uimm", .int ((32 * b + 4 * (r / 4) + 64 * (r % 4) : Nat) : Int)),
         ("imm", .int (signext 7 (32 * b + 4 * (r / 4) + 64 * (r % 4))))]) ∧
    (∀ (op f3 rd : Nat) (s : Int), op < 4 → f3 < 8 → rd < 8 → -512 ≤ s →
      s < 512 → s % 4 = 0 →
      CIW_fields (encCIW op f3 rd (s % 1024).toNat) =
        [("rd", .str (cxReg rd)),
         ("uimm", .int ((s % 1024).toNat : Int)), ("imm", .int s)]) ∧
    (∀ (op f3 rd rs1 : Nat) (s : Int), op < 4 → f3 < 8 → rd < 8 →
      rs1 < 8 → -64 ≤ s → s < 64 → s % 4 = 0 →
      CL_fields (encCL op f3 rd rs1 (s % 128).toNat) =
        [("rd", .str (cxReg rd)), ("rs1", .str (cxReg rs1)),
         ("uimm", .int ((s % 128).toNat : Int)), ("imm", .int s)]) ∧
    (∀ (op f3 rd rs2 : Nat) (s : Int), op < 4 → f3 < 8 → rd < 8 →
      rs2 < 8 → -16 ≤ s → s < 16 →
      CS_fields (encCS op f3 rd rs2 (s % 32).toNat) =
        [("rd", .str (cxReg rd)), ("rs1", .str (cxReg rd)),
         ("rs2", .str (cxReg rs2)),
         ("uimm", .int ((s % 32).toNat : Int)), ("imm", .int s)]) ∧
    (∀ (op f3 rs1 : Nat) (s : Int), op < 4 → f3 < 8 → rs1 < 8 →
      -256 ≤ s → s < 256 → s % 2 = 0 →
      CB_fields (encCB op f3 rs1 (s % 512).toNat) =
        [("rs1", .str (cxReg rs1)),
         ("uimm", .int ((s % 512).toNat : Int)), ("imm", .int s)]) ∧
    (∀ (op f3 : Nat) (s : Int), op < 4 → f3 < 8 → -1024 ≤ s → s < 1024 →
      s % 2 = 0 →
      CJ_fields (encCJ op f3 (s % 2048).toNat) =
        [("uimm", .int ((s % 2048).toNat : Int)), ("imm", .int s)]) := by
  refine ⟨?_, ?_, ?_, ?_, ?_, ?_, ?_, ?_, ?_, ?_, ?_, ?_, ?_, ?_⟩
  · intro op f3 f7 rd rs1 rs2 h1 h2 h3 h4 h5 h6
    exact c2round_R op f3 f7 rd rs1 rs2 h1 h2 h3 h4 h5 h6
  · intro op f3 rd rs1 s h1 h2 h3 h4 h5 h6
    exact c2round_I op f3 rd rs1 s h1 h2 h3 h4 h5 h6
  · intro op f3 rs1 rs2 s h1 h2 h3 h4 h5 h6
    exact c2round_S op f3 rs1 rs2 s h1 h2 h3 h4 h5 h6
  · intro op f3 rs1 rs2 s info h1 h2 h3 h4 h5 h6 h7
    exact ⟨c2round_B op f3 rs1 rs2 s info h1 h2 h3 h4 h5 h6 h7,
      pyIntHex_pyHex _⟩
  · intro op rd u h1 h2 h3
    exact c2round_U op rd u h1 h2 h3
  · intro op rd s info h1 h2 h3 h4 h5
    exact ⟨c2round_J op rd s info h1 h2 h3 h4 h5, pyIntHex_pyHex _⟩
  · intro op f4 rds1 rs2 h1 h2 h3 h4
    exact c2round_CR op f4 rds1 rs2 h1 h2 h3 h4
  · intro op f3 rds1 s h1 h2 h3 h4 h5
    exact c2round_CI op f3 rds1 s h1 h2 h3 h4 h5
  · intro op f3 r b h1 h2 h3 h4
    exact c2round_CSS op f3 r b h1 h2 h3 h4
  · intro op f3 rd s h1 h2 h3 h4 h5 h6
    exact c2round_CIW op f3 rd s h1 h2 h3 h4 h5 h6
  · intro op f3 rd rs1 s h1 h2 h3 h4 h5 h6 h7
    exact c2round_CL op f3 rd rs1 s h1 h2 h3 h4 h5 h6 h7
  · intro op f3 rd rs2 s h1 h2 h3 h4 h5 h6
    exact c2round_CS op f3 rd rs2 s h1 h2 h3 h4 h5 h6
  · intro op f3 rs1 s h1 h2 h3 h4 h5
    exact c2round_CB op f3 rs1 s h1 h2 h3 h4 h5
  · intro op f3 s h1 h2 h3 h4 h5
    exact c2round_CJ op f3 s h1 h2 h3 h4 h5

/-- Witness for C2 amended: the I-class round trip at opcode 0x13,
rd = 1, rs1 = 2 and immediate -1. -/
theorem c2_amended_witness :
    I_fields (encI 19 0 1 2 (((-1 : Int) % 4096).toNat)) =
      [("rd", .str (xReg 1)), ("rs1", .str (xReg 2)),
       ("uimm", .int ((((-1 : Int) % 4096).toNat : Int))),
       ("imm", .int (-1))] :=
  c2_amended.2.1 19 0 1 2 (-1) (by decide) (by decide) (by decide)
    (by decide) (by decide) (by decide)
